import Mathlib

/-!
Verification of the session-service token lifecycle kernel.

This file shallowly embeds the Go source of the multi-tenant OAuth2 token
issuer (handlers in internal/handlers, cache in internal/cache, key manager
and validator in internal/auth, repository in internal/database) as
executable Lean definitions, and proves the frozen specification claims
about them.

Modelling conventions:
* Machine time is modelled as `Int` seconds (the code compares times with
  Go `time.Time.After` / `Before`, i.e. strict order).
* Redis is modelled as association lists with absolute expiry instants; a
  key set at time `t` with TTL `d` is readable at `t2` iff `t2 < t + d`.
  All store operations are modelled faultless (no transient errors), which
  matches the non-error paths of the Go code.
* RSA key material is abstracted to the key id: a signature made with the
  private key of the pair whose kid is `k` verifies exactly against the
  public key of that same pair.  `jwt.Parse` of golang-jwt/jwt/v5 (invoked
  by TokenValidator.ValidateToken) checks alg membership in the valid
  methods list, resolves the key through the keyfunc, verifies the
  signature and then validates registered claims: `exp` (strictly in the
  future) and `nbf` (not after now) when present.
* Nondeterministic inputs of the code (current time, fresh UUID jti,
  random refresh-token bytes) are explicit parameters.
-/

set_option maxHeartbeats 1000000

namespace SessionService

/-- A JSON claim value as it appears in jwt.MapClaims after parsing. -/
inductive CVal where
  | str (s : String)
  | int (n : Int)
  | arr (l : List String)
  | boolean (b : Bool)
deriving DecidableEq, Repr

/-- pkg/errors ServiceError: emitted code, message and HTTP status. -/
structure ServiceError where
  code : String
  message : String
  status : Nat
deriving DecidableEq, Repr

/-- pkg/errors ErrInvalidCredentials. -/
def ErrInvalidCredentials : ServiceError :=
  { code := "INVALID_CREDENTIALS", message := "Invalid client credentials", status := 401 }

/-- pkg/errors ErrInvalidToken. -/
def ErrInvalidToken : ServiceError :=
  { code := "INVALID_TOKEN", message := "Invalid or expired token", status := 401 }

/-- pkg/errors ErrTokenRevoked. -/
def ErrTokenRevoked : ServiceError :=
  { code := "TOKEN_REVOKED", message := "Token has been revoked", status := 401 }

/-- pkg/errors ErrRateLimitExceeded. -/
def ErrRateLimitExceeded : ServiceError :=
  { code := "RATE_LIMIT_EXCEEDED", message := "Rate limit exceeded", status := 429 }

/-- pkg/errors ErrInvalidGrant. -/
def ErrInvalidGrant : ServiceError :=
  { code := "INVALID_GRANT", message := "Invalid grant type", status := 400 }

/-- pkg/errors ErrInvalidRequest. -/
def ErrInvalidRequest : ServiceError :=
  { code := "INVALID_REQUEST", message := "Invalid request", status := 400 }

/-- pkg/errors ErrInvalidRefreshToken. -/
def ErrInvalidRefreshToken : ServiceError :=
  { code := "INVALID_REFRESH_TOKEN", message := "Invalid or expired refresh token", status := 401 }

/-- pkg/errors ErrInternalServer. -/
def ErrInternalServer : ServiceError :=
  { code := "INTERNAL_SERVER_ERROR", message := "Internal server error", status := 500 }

/-- Modelled from the spec: models.TokenSubject, the non-PII identity bundle
`(user_id, tenant_id, roles[], scopes[])` used to mint access tokens and
persisted inside refresh-token records.  The struct definition itself is not
among the provided source files; its four fields are exactly those the spec
names and that handlers (part_008) and the generator (part_009) use. -/
structure TokenSubject where
  userID : String
  tenantID : String
  roles : List String
  scopes : List String
deriving DecidableEq, Repr

/-- models.RefreshTokenData: refresh-token record stored in Redis
(`client_id`, subject pointer, `expires_at`).  A nil subject pointer is
`none`. -/
structure RefreshTokenData where
  clientID : String
  subject : Option TokenSubject
  expiresAt : Int
deriving DecidableEq, Repr

/-- models.Client (fields the token flow reads; id omitted). -/
structure Client where
  clientID : String
  clientSecretHash : String
  rateLimit : Int
  createdAt : Int
  updatedAt : Int
deriving DecidableEq, Repr

/-- A users-table row.  NULLIF in UpsertUserAndRoles stores empty-string
email as NULL, modelled by `Option`. -/
structure DbUser where
  id : String
  tenantID : String
  email : Option String
  fullName : String
  phoneNumber : String
deriving DecidableEq, Repr

/-- models.User as built by handleUserProvisioning (all plain strings). -/
structure UserInput where
  id : String
  tenantID : String
  email : String
  fullName : String
  phoneNumber : String
deriving DecidableEq, Repr

/-- The configuration fields the token flow reads (internal/config).
Durations in seconds. -/
structure Config where
  jwtIssuer : String
  jwtAudience : String
  jwtExpiry : Int
  refreshTokenExpiry : Int
  refreshTokenLength : Nat
deriving DecidableEq, Repr

/-! ### Association-list primitives (Redis keyspace / Go maps) -/

/-- Value stored under a key, first match wins. -/
def findVal {α : Type} (l : List (String × α)) (k : String) : Option α :=
  (l.find? (fun x => x.1 == k)).map (fun x => x.2)

/-- Remove every binding of a key. -/
def eraseKey {α : Type} (l : List (String × α)) (k : String) : List (String × α) :=
  l.filter (fun x => x.1 != k)

/-- Set a key to a value (Redis SET / Go map assignment). -/
def setKey {α : Type} (l : List (String × α)) (k : String) (v : α) : List (String × α) :=
  (k, v) :: eraseKey l k

theorem findVal_nil {α : Type} (k : String) : findVal ([] : List (String × α)) k = none := rfl

theorem findVal_cons_eq {α : Type} (x : String × α) (xs : List (String × α)) (k : String)
    (h : x.1 = k) : findVal (x :: xs) k = some x.2 := by
  unfold findVal
  rw [List.find?_cons_of_pos]
  · rfl
  · simp [h]

theorem findVal_cons_ne {α : Type} (x : String × α) (xs : List (String × α)) (k : String)
    (h : ¬ x.1 = k) : findVal (x :: xs) k = findVal xs k := by
  unfold findVal
  rw [List.find?_cons_of_neg]
  simp [h]

theorem eraseKey_nil {α : Type} (k : String) : eraseKey ([] : List (String × α)) k = [] := rfl

theorem eraseKey_cons_eq {α : Type} (x : String × α) (xs : List (String × α)) (k : String)
    (h : x.1 = k) : eraseKey (x :: xs) k = eraseKey xs k := by
  simp [eraseKey, List.filter_cons, h]

theorem eraseKey_cons_ne {α : Type} (x : String × α) (xs : List (String × α)) (k : String)
    (h : ¬ x.1 = k) : eraseKey (x :: xs) k = x :: eraseKey xs k := by
  simp [eraseKey, List.filter_cons, h]

theorem findVal_eraseKey_ne {α : Type} (l : List (String × α)) (k k2 : String) (h : k2 ≠ k) :
    findVal (eraseKey l k) k2 = findVal l k2 := by
  induction l with
  | nil => rfl
  | cons x xs ih =>
    by_cases hx : x.1 = k
    · rw [eraseKey_cons_eq x xs k hx, ih, findVal_cons_ne x xs k2 (by rw [hx]; exact fun he => h he.symm)]
    · by_cases hk2 : x.1 = k2
      · rw [eraseKey_cons_ne x xs k hx, findVal_cons_eq x _ k2 hk2, findVal_cons_eq x xs k2 hk2]
      · rw [eraseKey_cons_ne x xs k hx, findVal_cons_ne x _ k2 hk2, findVal_cons_ne x xs k2 hk2, ih]

theorem findVal_eraseKey_self {α : Type} (l : List (String × α)) (k : String) :
    findVal (eraseKey l k) k = none := by
  induction l with
  | nil => rfl
  | cons x xs ih =>
    by_cases hx : x.1 = k
    · rw [eraseKey_cons_eq x xs k hx, ih]
    · rw [eraseKey_cons_ne x xs k hx, findVal_cons_ne x _ k hx, ih]

theorem findVal_setKey_self {α : Type} (l : List (String × α)) (k : String) (v : α) :
    findVal (setKey l k v) k = some v := by
  unfold setKey
  rw [findVal_cons_eq _ _ k rfl]

theorem findVal_setKey_ne {α : Type} (l : List (String × α)) (k k2 : String) (v : α)
    (h : k2 ≠ k) : findVal (setKey l k v) k2 = findVal l k2 := by
  unfold setKey
  rw [findVal_cons_ne _ _ k2 (fun he => h he.symm), findVal_eraseKey_ne l k k2 h]

/-! ### internal/cache: the Redis session store

State is a snapshot of the relevant keyspaces.  Keys carry absolute expiry
instants; a key set at `now` with TTL `ttl` is alive at `t` iff `t < now + ttl`.
`log` is a ghost trace of the refresh-token store mutations, recording their
order (used to check the revoke-before-delete ordering requirement). -/

/-- Trace entry for a refresh-token store mutation. -/
inductive CacheOp where
  | revoke (tok : String) (ttl : Int)
  | delete (tok : String)
  | store (tok : String) (ttl : Int)
deriving DecidableEq, Repr

/-- Snapshot of the Redis keyspaces used by the token flow. -/
structure CacheState where
  clients : List (String × (Client × Int))
  refreshTokens : List (String × (RefreshTokenData × Int))
  revokedRefresh : List (String × Int)
  revokedJti : List (String × Int)
  rateCounters : List (String × (Int × Option Int))
  log : List CacheOp
deriving DecidableEq, Repr

/-- Cache.GetClient: cache miss (absent or expired key) is `none`. -/
def cacheGetClient (st : CacheState) (now : Int) (clientID : String) : Option Client :=
  match findVal st.clients clientID with
  | some (c, e) => if now < e then some c else none
  | none => none

/-- Cache.SetClient with TTL (the handler passes 15 minutes). -/
def cacheSetClient (st : CacheState) (now : Int) (c : Client) (ttl : Int) : CacheState :=
  { st with clients := setKey st.clients c.clientID (c, now + ttl) }

/-- Cache.StoreRefreshToken. -/
def storeRefreshToken (st : CacheState) (now : Int) (tok : String) (d : RefreshTokenData)
    (ttl : Int) : CacheState :=
  { st with refreshTokens := setKey st.refreshTokens tok (d, now + ttl),
            log := st.log ++ [CacheOp.store tok ttl] }

/-- Cache.GetRefreshToken: redis.Nil (absent or expired) is `none`. -/
def getRefreshToken (st : CacheState) (now : Int) (tok : String) : Option RefreshTokenData :=
  match findVal st.refreshTokens tok with
  | some (d, e) => if now < e then some d else none
  | none => none

/-- Cache.DeleteRefreshToken. -/
def deleteRefreshToken (st : CacheState) (tok : String) : CacheState :=
  { st with refreshTokens := eraseKey st.refreshTokens tok,
            log := st.log ++ [CacheOp.delete tok] }

/-- Cache.RevokeRefreshToken: SET revoked:refresh:tok with the given TTL. -/
def revokeRefreshToken (st : CacheState) (now : Int) (tok : String) (ttl : Int) : CacheState :=
  { st with revokedRefresh := setKey st.revokedRefresh tok (now + ttl),
            log := st.log ++ [CacheOp.revoke tok ttl] }

/-- Cache.IsRefreshTokenRevoked: EXISTS revoked:refresh:tok. -/
def isRefreshTokenRevoked (st : CacheState) (now : Int) (tok : String) : Bool :=
  match findVal st.revokedRefresh tok with
  | some e => now < e
  | none => false

/-- Cache.RevokeToken: SET revoked:jti:jti with the given TTL. -/
def revokeJti (st : CacheState) (now : Int) (jti : String) (ttl : Int) : CacheState :=
  { st with revokedJti := setKey st.revokedJti jti (now + ttl) }

/-- Cache.IsTokenRevoked: EXISTS revoked:jti:jti. -/
def isTokenRevoked (st : CacheState) (now : Int) (jti : String) : Bool :=
  match findVal st.revokedJti jti with
  | some e => now < e
  | none => false

/-- Redis INCR on the rate_limit key: a missing or expired key restarts at 1
with no TTL; a live key is incremented and keeps its expiry. -/
def incrRateCounter (l : List (String × (Int × Option Int))) (now : Int) (k : String) :
    Int × List (String × (Int × Option Int)) :=
  match findVal l k with
  | some (c, some e) =>
      if now < e then (c + 1, setKey l k (c + 1, some e)) else (1, setKey l k (1, none))
  | some (c, none) => (c + 1, setKey l k (c + 1, none))
  | none => (1, setKey l k (1, none))

/-- Stamp an expiry instant onto a counter value. -/
def setCounterExpiry (e : Int) (v : Int × Option Int) : Int × Option Int :=
  (v.1, some e)

/-- Redis EXPIRE on the rate_limit key (sets the expiry of an existing key). -/
def expireRateCounter (l : List (String × (Int × Option Int))) (k : String) (e : Int) :
    List (String × (Int × Option Int)) :=
  l.map (fun x => if x.1 == k then (x.1, setCounterExpiry e x.2) else x)

/-- Cache.CheckRateLimit: INCR, set the window TTL iff the new count is 1,
and report exceeded iff the new count strictly exceeds the limit. -/
def checkRateLimit (st : CacheState) (now : Int) (clientID : String) (limit : Int)
    (window : Int) : Bool × CacheState :=
  let r := incrRateCounter st.rateCounters now clientID
  let ctrs := if r.1 = 1 then expireRateCounter r.2 clientID (now + window) else r.2
  (decide (limit < r.1), { st with rateCounters := ctrs })

/-! ### internal/database: the Postgres repository -/

/-- Snapshot of the persistent store. -/
structure DBState where
  clients : List (String × Client)
  tenants : List String
  users : List (String × DbUser)
  userRoles : List (String × String)
deriving DecidableEq, Repr

/-- PostgresRepository.GetClientByID (no rows is `none`). -/
def dbGetClient (db : DBState) (clientID : String) : Option Client :=
  findVal db.clients clientID

/-- The updated_at bump of UpdateClientUpdatedAt. -/
def touchClient (now : Int) (c : Client) : Client :=
  { c with updatedAt := now }

/-- PostgresRepository.UpdateClientUpdatedAt. -/
def updateClientUpdatedAt (db : DBState) (clientID : String) (now : Int) : DBState :=
  { db with clients :=
      db.clients.map (fun x => if x.1 == clientID then (x.1, touchClient now x.2) else x) }

/-- PostgresRepository.EnsureTenantExists (true iff the row exists). -/
def tenantExists (db : DBState) (tenantID : String) : Bool :=
  db.tenants.contains tenantID

/-- PostgresRepository.GetUserByID. -/
def dbGetUser (db : DBState) (userID : String) : Option DbUser :=
  findVal db.users userID

/-- Roles of a user in a user_roles relation. -/
def rolesOf (ur : List (String × String)) (userID : String) : List String :=
  (ur.filter (fun x => x.1 == userID)).map (fun x => x.2)

/-- PostgresRepository.GetUserRoles. -/
def getUserRoles (db : DBState) (userID : String) : List String :=
  rolesOf db.userRoles userID

/-- The role-insert loop of UpsertUserAndRoles: each INSERT has
ON CONFLICT (user_id, role) DO NOTHING, i.e. a pair already present is
skipped. -/
def insertRoles (ur : List (String × String)) (userID : String) (roles : List String) :
    List (String × String) :=
  roles.foldl (fun acc r => if (userID, r) ∈ acc then acc else acc ++ [(userID, r)]) ur

/-- PostgresRepository.UpsertUserAndRoles: upsert the user row (NULLIF turns
an empty email into NULL); when `roles` is non-nil, delete the user's role
set and insert the new roles. -/
def upsertUserAndRoles (db : DBState) (u : UserInput) (roles : Option (List String)) : DBState :=
  let row : DbUser :=
    { id := u.id, tenantID := u.tenantID,
      email := if u.email = "" then none else some u.email,
      fullName := u.fullName, phoneNumber := u.phoneNumber }
  let users1 := setKey db.users u.id row
  let ur1 :=
    match roles with
    | none => db.userRoles
    | some l => insertRoles (db.userRoles.filter (fun x => x.1 != u.id)) u.id l
  { db with users := users1, userRoles := ur1 }

/-! ### internal/auth/jwks.go: the key manager

RSA key material is abstracted to the pair's kid: `KeyPair.keyID` stands for
both halves of the pair, and a signature made with the private key of the
pair verifies exactly against `keyID`. `expiresAt = none` models the Go zero
time (no explicit expiry). -/

/-- auth.KeyPair. -/
structure KeyPair where
  keyID : String
  createdAt : Int
  expiresAt : Option Int
  isActive : Bool
deriving DecidableEq, Repr

/-- auth.KeyManager. -/
structure KeyManager where
  keys : List (String × KeyPair)
  currentKeyID : String
deriving DecidableEq, Repr

/-- KeyManager.GetCurrentKeyID. -/
def getCurrentKeyID (km : KeyManager) : String :=
  km.currentKeyID

/-- KeyManager.GetPrivateKey: the current key if present and active, else
nil (`none`). -/
def getPrivateKey (km : KeyManager) : Option String :=
  match findVal km.keys km.currentKeyID with
  | some k => if k.isActive then some k.keyID else none
  | none => none

/-- KeyManager.GetPublicKeyByID: the key must exist, be active, and not be
past its expiry (`ExpiresAt.Before(now)` is strict). -/
def getPublicKeyByID (km : KeyManager) (now : Int) (kid : String) : Except String String :=
  match findVal km.keys kid with
  | none => Except.error ("key not found or inactive: " ++ kid)
  | some k =>
      if ¬ k.isActive then Except.error ("key not found or inactive: " ++ kid)
      else
        match k.expiresAt with
        | some e => if e < now then Except.error ("key expired: " ++ kid) else Except.ok k.keyID
        | none => Except.ok k.keyID

/-- The in-place mutation `current.ExpiresAt = now.Add(gracePeriod)`. -/
def stampExpiry (e : Int) (kp : KeyPair) : KeyPair :=
  { kp with expiresAt := some e }

/-- KeyManager.RotateKeys: generate a new pair under a fresh kid (passed in,
since uuid generation is nondeterministic), stamp the previous current key's
expiry to now + grace when it exists, install the new pair and make it
current. -/
def rotateKeys (km : KeyManager) (now grace : Int) (newKid : String) : KeyManager :=
  let keys1 :=
    match findVal km.keys km.currentKeyID with
    | some _ =>
        km.keys.map (fun x =>
          if x.1 == km.currentKeyID then (x.1, stampExpiry (now + grace) x.2) else x)
    | none => km.keys
  { keys := setKey keys1 newKid
      { keyID := newKid, createdAt := now, expiresAt := none, isActive := true },
    currentKeyID := newKid }

/-! ### internal/auth/token.go (part_009): the token generator -/

/-- A parsed JWT: header fields, claims, and the identity of the key pair
whose private key produced the signature (`sigKid`).  The signature
verifies against the public key of pair `k` iff `sigKid = k`. -/
structure Jwt where
  alg : String
  kid : Option String
  claims : List (String × CVal)
  sigKid : String
deriving DecidableEq, Repr

/-- The claims map built by TokenGenerator.GenerateAccessToken: iss, aud,
exp = now + expiry, iat, jti, sub = oid = user id, tid; roles and scp only
when non-empty. -/
def accessClaims (cfg : Config) (subject : TokenSubject) (now : Int) (jti : String) :
    List (String × CVal) :=
  [("iss", CVal.str cfg.jwtIssuer),
   ("aud", CVal.str cfg.jwtAudience),
   ("exp", CVal.int (now + cfg.jwtExpiry)),
   ("iat", CVal.int now),
   ("jti", CVal.str jti),
   ("sub", CVal.str subject.userID),
   ("oid", CVal.str subject.userID),
   ("tid", CVal.str subject.tenantID)]
  ++ (if subject.roles.length > 0 then [("roles", CVal.arr subject.roles)] else [])
  ++ (if subject.scopes.length > 0 then [("scp", CVal.arr subject.scopes)] else [])

/-- TokenGenerator.GenerateAccessToken over a TokenSubject.  `now` is the
mint instant and `jti` the fresh uuid.  The kid header is set when the
current kid is non-empty; signing fails (Go error, here `none`) when
GetPrivateKey is nil. -/
def generateAccessToken (cfg : Config) (km : KeyManager) (subject : TokenSubject)
    (now : Int) (jti : String) : Option Jwt :=
  let kid := if getCurrentKeyID km ≠ "" then some (getCurrentKeyID km) else none
  match getPrivateKey km with
  | some sk =>
      some { alg := "RS256", kid := kid, claims := accessClaims cfg subject now jti,
             sigKid := sk }
  | none => none

/-- The URL-safe base64 alphabet of Go encoding/base64 (URLEncoding). -/
def b64UrlChars : List Char :=
  String.toList "ABCDEFGHIJKLMNOPQRSTUVWXYZabcdefghijklmnopqrstuvwxyz0123456789-_"

/-- Character for a 6-bit group. -/
def b64Char (n : Nat) : Char :=
  b64UrlChars.getD n 'A'

/-- Go base64.URLEncoding.EncodeToString: 3-byte groups become 4 characters;
a 1-byte tail is padded with two characters of padding, a 2-byte tail with
one.  (URLEncoding is the padded URL-safe encoding.) -/
def base64UrlEncode : List Nat → List Char
  | [] => []
  | [b1] => [b64Char (b1 / 4), b64Char (b1 % 4 * 16), '=', '=']
  | [b1, b2] => [b64Char (b1 / 4), b64Char (b1 % 4 * 16 + b2 / 16), b64Char (b2 % 16 * 4), '=']
  | b1 :: b2 :: b3 :: rest =>
      b64Char (b1 / 4) :: b64Char (b1 % 4 * 16 + b2 / 16) ::
      b64Char (b2 % 16 * 4 + b3 / 64) :: b64Char (b3 % 64) :: base64UrlEncode rest

/-- TokenGenerator.GenerateRefreshToken: crypto/rand fills a buffer of the
configured length (the filled bytes are the explicit `randomBytes` input; a
short read is a Go error, here `none`), then the buffer is base64-encoded
with URLEncoding. -/
def generateRefreshToken (cfg : Config) (randomBytes : List Nat) : Option String :=
  if randomBytes.length = cfg.refreshTokenLength then
    some (String.mk (base64UrlEncode randomBytes))
  else none

/-! ### internal/auth/validator.go: the token validator -/

deriving instance DecidableEq for Except

/-- Claim lookup on jwt.MapClaims. -/
def lookupClaim (cs : List (String × CVal)) (k : String) : Option CVal :=
  findVal cs k

/-- The exp check of the jwt/v5 claims validator: when exp is present it must
be strictly in the future (a non-numeric exp is a parse error). -/
def expClaimOk (cs : List (String × CVal)) (now : Int) : Bool :=
  match lookupClaim cs "exp" with
  | some (CVal.int e) => decide (now < e)
  | some _ => false
  | none => true

/-- The nbf check of the jwt/v5 claims validator: when nbf is present it must
be at or before now. -/
def nbfClaimOk (cs : List (String × CVal)) (now : Int) : Bool :=
  match lookupClaim cs "nbf" with
  | some (CVal.int n) => decide (n ≤ now)
  | some _ => false
  | none => true

/-- TokenValidator.ValidateToken: jwt.Parse restricted to RS256, keyfunc
requiring a non-empty kid resolved through KeyManager.GetPublicKeyByID,
signature verification, the library's exp/nbf validation, then the explicit
issuer, audience and expiry re-checks and the jti revocation lookup. -/
def validateToken (cfg : Config) (km : KeyManager) (st : CacheState) (now : Int)
    (t : Jwt) : Except String (List (String × CVal)) :=
  if t.alg ≠ "RS256" then Except.error "token signature is invalid"
  else
    match t.kid with
    | none => Except.error "missing kid in token header"
    | some kid =>
      if kid = "" then Except.error "missing kid in token header"
      else
        match getPublicKeyByID km now kid with
        | Except.error e => Except.error e
        | Except.ok pub =>
          if t.sigKid ≠ pub then Except.error "token signature is invalid"
          else if ¬ expClaimOk t.claims now then Except.error "token has expired"
          else if ¬ nbfClaimOk t.claims now then Except.error "token is not valid yet"
          else
            match lookupClaim t.claims "iss" with
            | some (CVal.str iss) =>
              if iss ≠ cfg.jwtIssuer then Except.error "invalid issuer"
              else
                match lookupClaim t.claims "aud" with
                | some (CVal.str aud) =>
                  if aud ≠ cfg.jwtAudience then Except.error "invalid audience"
                  else
                    let expDouble : Bool :=
                      match lookupClaim t.claims "exp" with
                      | some (CVal.int e) => decide (e < now)
                      | _ => false
                    if expDouble then Except.error "token has expired"
                    else
                      let jtiRevoked : Bool :=
                        match lookupClaim t.claims "jti" with
                        | some (CVal.str j) =>
                            if j ≠ "" then isTokenRevoked st now j else false
                        | _ => false
                      if jtiRevoked then Except.error "token has been revoked"
                      else Except.ok t.claims
                | _ => Except.error "invalid audience"
            | _ => Except.error "invalid issuer"

/-! ### internal/handlers/verify.go -/

/-- The token field of a verify request: empty string, a string that does
not parse as a JWT, or a parsed JWT. -/
inductive TokenField where
  | empty
  | malformed
  | jwt (t : Jwt)
deriving DecidableEq, Repr

/-- models.VerifyResponse. -/
structure VerifyResponse where
  valid : Bool
  claims : Option (List (String × CVal))
  message : Option String
deriving DecidableEq, Repr

/-- Outcome of HandleVerify: a sendError JSON error (its HTTP status is the
ServiceError status) or a sendResponse with a status and body. -/
inductive VerifyResult where
  | errJson (e : ServiceError)
  | okJson (status : Nat) (body : VerifyResponse)
deriving DecidableEq, Repr

/-- VerifyHandler.HandleVerify: tenant path segment must be present, the
body must decode (`none` = JSON decode failure), the token must be
non-empty; a validation failure is a 200 with valid:false; a string tid
claim must equal the path tenant; otherwise 200 with valid:true and the
claims. -/
def handleVerify (cfg : Config) (km : KeyManager) (st : CacheState) (now : Int)
    (tenantPath : String) (body : Option TokenField) : VerifyResult :=
  if tenantPath = "" then VerifyResult.errJson ErrInvalidRequest
  else
    match body with
    | none => VerifyResult.errJson ErrInvalidToken
    | some TokenField.empty => VerifyResult.errJson ErrInvalidToken
    | some TokenField.malformed =>
        VerifyResult.okJson 200
          { valid := false, claims := none, message := some "failed to parse token" }
    | some (TokenField.jwt t) =>
        match validateToken cfg km st now t with
        | Except.error e =>
            VerifyResult.okJson 200 { valid := false, claims := none, message := some e }
        | Except.ok cs =>
            match lookupClaim cs "tid" with
            | some (CVal.str tid) =>
                if tid ≠ tenantPath then
                  VerifyResult.okJson 200
                    { valid := false, claims := none,
                      message := some "tenant_id in path does not match token tenant_id" }
                else VerifyResult.okJson 200 { valid := true, claims := some cs, message := none }
            | _ => VerifyResult.okJson 200 { valid := true, claims := some cs, message := none }

/-! ### internal/handlers (part_008): the grant state machine -/

/-- models.TokenResponse; the access token is kept as the parsed JWT (the
compact serialization is injective on it). -/
structure TokenResponse where
  accessToken : Jwt
  tokenType : String
  expiresIn : Int
  refreshToken : String
deriving DecidableEq, Repr

/-- Outcome of a grant handler: 200 with a token response, or a sendError. -/
inductive GrantResult where
  | ok (resp : TokenResponse)
  | err (e : ServiceError)
deriving DecidableEq, Repr

/-- Whether a grant produced tokens. -/
def GrantResult.isOk : GrantResult → Bool
  | GrantResult.ok _ => true
  | GrantResult.err _ => false

/-- Client resolution shared by client_credentials and provision_user:
cache first, then the database, caching a database hit for 15 minutes.
A miss in both is `none` (InvalidCredentials in the handlers). -/
def resolveClient (db : DBState) (st : CacheState) (now : Int) (clientID : String) :
    Option (Client × CacheState) :=
  match cacheGetClient st now clientID with
  | some c => some (c, st)
  | none =>
      match dbGetClient db clientID with
      | none => none
      | some c => some (c, cacheSetClient st now c 900)

/-- TokenHandler.handleRefreshToken.  `jti` and `newRefreshToken` are the
nondeterministic fresh outputs of the generator.  Returns the response and
the cache state (the handler does not write the database).  The Go code
re-checks `subject == nil` after the revocation step; that check is
unreachable because the combined nil-or-tenant-mismatch check already
returned, and the model reflects the reachable behaviour. -/
def handleRefreshToken (cfg : Config) (km : KeyManager) (db : DBState) (st : CacheState)
    (now : Int) (tenantPath refreshToken jti newRefreshToken : String) :
    GrantResult × CacheState :=
  if refreshToken = "" then (GrantResult.err ErrInvalidRefreshToken, st)
  else
    match getRefreshToken st now refreshToken with
    | none => (GrantResult.err ErrInvalidRefreshToken, st)
    | some tokenData =>
      if isRefreshTokenRevoked st now refreshToken then
        (GrantResult.err ErrInvalidRefreshToken, st)
      else if tokenData.expiresAt < now then (GrantResult.err ErrInvalidRefreshToken, st)
      else
        match tokenData.subject with
        | none => (GrantResult.err ErrInvalidRefreshToken, st)
        | some subj =>
          if subj.tenantID ≠ tenantPath then (GrantResult.err ErrInvalidRefreshToken, st)
          else
            match dbGetClient db tokenData.clientID with
            | none => (GrantResult.err ErrInvalidRefreshToken, st)
            | some client =>
              let rl := checkRateLimit st now tokenData.clientID client.rateLimit 60
              if rl.1 then (GrantResult.err ErrRateLimitExceeded, rl.2)
              else
                let st1 := revokeRefreshToken rl.2 now refreshToken cfg.refreshTokenExpiry
                let st2 := deleteRefreshToken st1 refreshToken
                match generateAccessToken cfg km subj now jti with
                | none => (GrantResult.err ErrInternalServer, st2)
                | some accessToken =>
                  let newData : RefreshTokenData :=
                    { clientID := tokenData.clientID, subject := some subj,
                      expiresAt := now + cfg.refreshTokenExpiry }
                  let st3 := storeRefreshToken st2 now newRefreshToken newData
                    cfg.refreshTokenExpiry
                  (GrantResult.ok
                    { accessToken := accessToken, tokenType := "Bearer",
                      expiresIn := cfg.jwtExpiry, refreshToken := newRefreshToken }, st3)

/-- TokenHandler.handleClientCredentials.  `bcryptOK hash secret` abstracts
bcrypt.CompareHashAndPassword succeeding.  `jti` and `newRefreshToken` are
the generator's fresh outputs. -/
def handleClientCredentials (cfg : Config) (km : KeyManager)
    (bcryptOK : String → String → Bool) (db : DBState) (st : CacheState) (now : Int)
    (tenantPath clientID clientSecret userID jti newRefreshToken : String) :
    GrantResult × DBState × CacheState :=
  if clientID = "" ∨ clientSecret = "" then (GrantResult.err ErrInvalidCredentials, db, st)
  else
    match resolveClient db st now clientID with
    | none => (GrantResult.err ErrInvalidCredentials, db, st)
    | some (client, st0) =>
      if ¬ bcryptOK client.clientSecretHash clientSecret then
        (GrantResult.err ErrInvalidCredentials, db, st0)
      else
        let rl := checkRateLimit st0 now clientID client.rateLimit 60
        if rl.1 then (GrantResult.err ErrRateLimitExceeded, db, rl.2)
        else if userID = "" then (GrantResult.err ErrInvalidRequest, db, rl.2)
        else if ¬ tenantExists db tenantPath then (GrantResult.err ErrInvalidRequest, db, rl.2)
        else
          match dbGetUser db userID with
          | none => (GrantResult.err ErrInvalidRequest, db, rl.2)
          | some user =>
            if user.tenantID ≠ tenantPath then (GrantResult.err ErrInvalidRequest, db, rl.2)
            else
              let roles := getUserRoles db userID
              let subject : TokenSubject :=
                { userID := userID, tenantID := tenantPath, roles := roles, scopes := [] }
              match generateAccessToken cfg km subject now jti with
              | none => (GrantResult.err ErrInternalServer, db, rl.2)
              | some accessToken =>
                let data : RefreshTokenData :=
                  { clientID := clientID, subject := some subject,
                    expiresAt := now + cfg.refreshTokenExpiry }
                let st1 := storeRefreshToken rl.2 now newRefreshToken data
                  cfg.refreshTokenExpiry
                let db1 := updateClientUpdatedAt db clientID now
                (GrantResult.ok
                  { accessToken := accessToken, tokenType := "Bearer",
                    expiresIn := cfg.jwtExpiry, refreshToken := newRefreshToken }, db1, st1)

/-- Whitespace for strings.TrimSpace (the ASCII space characters; the
handler's role strings never carry the rarer unicode spaces). -/
def isSpaceChar (c : Char) : Bool :=
  c = ' ' ∨ c = '\t' ∨ c = '\n' ∨ c = '\r'

/-- strings.Split(s, ",") over the character list. -/
def splitCommaAux : List Char → List Char → List (List Char)
  | [], acc => [acc.reverse]
  | c :: cs, acc =>
      if c = ',' then acc.reverse :: splitCommaAux cs [] else splitCommaAux cs (c :: acc)

/-- strings.TrimSpace over the character list. -/
def trimChars (l : List Char) : List Char :=
  ((l.dropWhile isSpaceChar).reverse.dropWhile isSpaceChar).reverse

/-- The roles parsing of handleUserProvisioning: split the form value on
commas, trim whitespace, keep the non-empty entries.  Go appends each kept
entry to a nil slice, so the slice stays nil (here `none`) exactly when the
input is empty or every entry trims to empty. -/
def parseRoles (raw : String) : Option (List String) :=
  if raw = "" then none
  else
    let l := ((splitCommaAux raw.toList []).map (fun cs => String.mk (trimChars cs))).filter
      (fun s => s != "")
    if l = [] then none else some l

/-- TokenHandler.handleUserProvisioning. -/
def handleUserProvisioning (cfg : Config) (km : KeyManager)
    (bcryptOK : String → String → Bool) (db : DBState) (st : CacheState) (now : Int)
    (tenantPath clientID clientSecret userID userFullName userPhone userEmail
      userRolesRaw jti newRefreshToken : String) :
    GrantResult × DBState × CacheState :=
  if clientID = "" ∨ clientSecret = "" then (GrantResult.err ErrInvalidCredentials, db, st)
  else
    match resolveClient db st now clientID with
    | none => (GrantResult.err ErrInvalidCredentials, db, st)
    | some (client, st0) =>
      if ¬ bcryptOK client.clientSecretHash clientSecret then
        (GrantResult.err ErrInvalidCredentials, db, st0)
      else
        let rl := checkRateLimit st0 now clientID client.rateLimit 60
        if rl.1 then (GrantResult.err ErrRateLimitExceeded, db, rl.2)
        else if userID = "" then (GrantResult.err ErrInvalidRequest, db, rl.2)
        else if userFullName = "" ∨ userPhone = "" then
          (GrantResult.err ErrInvalidRequest, db, rl.2)
        else if ¬ tenantExists db tenantPath then (GrantResult.err ErrInvalidRequest, db, rl.2)
        else
          let roles := parseRoles userRolesRaw
          let user : UserInput :=
            { id := userID, tenantID := tenantPath, email := userEmail,
              fullName := userFullName, phoneNumber := userPhone }
          let db1 := upsertUserAndRoles db user roles
          let rolesFinal :=
            match roles with
            | none => getUserRoles db1 userID
            | some l => l
          let subject : TokenSubject :=
            { userID := userID, tenantID := tenantPath, roles := rolesFinal, scopes := [] }
          match generateAccessToken cfg km subject now jti with
          | none => (GrantResult.err ErrInternalServer, db1, rl.2)
          | some accessToken =>
            let data : RefreshTokenData :=
              { clientID := clientID, subject := some subject,
                expiresAt := now + cfg.refreshTokenExpiry }
            let st1 := storeRefreshToken rl.2 now newRefreshToken data cfg.refreshTokenExpiry
            let db2 := updateClientUpdatedAt db1 clientID now
            (GrantResult.ok
              { accessToken := accessToken, tokenType := "Bearer",
                expiresIn := cfg.jwtExpiry, refreshToken := newRefreshToken }, db2, st1)

/-- One grant request's nondeterministic inputs in a sequence of
client_credentials calls. -/
structure GrantCall where
  now : Int
  jti : String
  newRefreshToken : String
deriving DecidableEq, Repr

/-- Run a sequence of client_credentials grants for one client and user,
threading the database and cache states. -/
def runGrants (cfg : Config) (km : KeyManager) (bcryptOK : String → String → Bool)
    (tenantPath clientID clientSecret userID : String) :
    DBState → CacheState → List GrantCall → List GrantResult × DBState × CacheState
  | db, st, [] => ([], db, st)
  | db, st, c :: rest =>
      let r := handleClientCredentials cfg km bcryptOK db st c.now tenantPath clientID
        clientSecret userID c.jti c.newRefreshToken
      let rr := runGrants cfg km bcryptOK tenantPath clientID clientSecret userID
        r.2.1 r.2.2 rest
      (r.1 :: rr.1, rr.2)

/-! ### State-projection lemmas for the cache operations -/

@[simp] theorem revoke_refreshTokens (st : CacheState) (now : Int) (tok : String) (ttl : Int) :
    (revokeRefreshToken st now tok ttl).refreshTokens = st.refreshTokens := rfl

@[simp] theorem revoke_revokedRefresh (st : CacheState) (now : Int) (tok : String) (ttl : Int) :
    (revokeRefreshToken st now tok ttl).revokedRefresh = setKey st.revokedRefresh tok (now + ttl) := rfl

@[simp] theorem revoke_log (st : CacheState) (now : Int) (tok : String) (ttl : Int) :
    (revokeRefreshToken st now tok ttl).log = st.log ++ [CacheOp.revoke tok ttl] := rfl

@[simp] theorem delete_refreshTokens (st : CacheState) (tok : String) :
    (deleteRefreshToken st tok).refreshTokens = eraseKey st.refreshTokens tok := rfl

@[simp] theorem delete_revokedRefresh (st : CacheState) (tok : String) :
    (deleteRefreshToken st tok).revokedRefresh = st.revokedRefresh := rfl

@[simp] theorem delete_log (st : CacheState) (tok : String) :
    (deleteRefreshToken st tok).log = st.log ++ [CacheOp.delete tok] := rfl

@[simp] theorem store_refreshTokens (st : CacheState) (now : Int) (tok : String)
    (d : RefreshTokenData) (ttl : Int) :
    (storeRefreshToken st now tok d ttl).refreshTokens =
      setKey st.refreshTokens tok (d, now + ttl) := rfl

@[simp] theorem store_revokedRefresh (st : CacheState) (now : Int) (tok : String)
    (d : RefreshTokenData) (ttl : Int) :
    (storeRefreshToken st now tok d ttl).revokedRefresh = st.revokedRefresh := rfl

@[simp] theorem store_log (st : CacheState) (now : Int) (tok : String)
    (d : RefreshTokenData) (ttl : Int) :
    (storeRefreshToken st now tok d ttl).log = st.log ++ [CacheOp.store tok ttl] := rfl

@[simp] theorem checkRateLimit_refreshTokens (st : CacheState) (now : Int) (cid : String)
    (limit window : Int) :
    (checkRateLimit st now cid limit window).2.refreshTokens = st.refreshTokens := rfl

@[simp] theorem checkRateLimit_revokedRefresh (st : CacheState) (now : Int) (cid : String)
    (limit window : Int) :
    (checkRateLimit st now cid limit window).2.revokedRefresh = st.revokedRefresh := rfl

@[simp] theorem checkRateLimit_revokedJti (st : CacheState) (now : Int) (cid : String)
    (limit window : Int) :
    (checkRateLimit st now cid limit window).2.revokedJti = st.revokedJti := rfl

@[simp] theorem checkRateLimit_clients (st : CacheState) (now : Int) (cid : String)
    (limit window : Int) :
    (checkRateLimit st now cid limit window).2.clients = st.clients := rfl

@[simp] theorem checkRateLimit_log (st : CacheState) (now : Int) (cid : String)
    (limit window : Int) :
    (checkRateLimit st now cid limit window).2.log = st.log := rfl

/-- Inversion of a successful refresh rotation: every guard passed and the
final cache state is the rate-limited state with the revoke, delete and
store mutations applied in that order. -/
theorem handleRefresh_ok_inv (cfg : Config) (km : KeyManager) (db : DBState)
    (st : CacheState) (now : Int) (path tok jti ntok : String) (resp : TokenResponse)
    (st2 : CacheState)
    (h : handleRefreshToken cfg km db st now path tok jti ntok = (GrantResult.ok resp, st2)) :
    tok ≠ "" ∧ ∃ d subj client a,
      getRefreshToken st now tok = some d ∧
      isRefreshTokenRevoked st now tok = false ∧
      ¬ d.expiresAt < now ∧
      d.subject = some subj ∧
      subj.tenantID = path ∧
      dbGetClient db d.clientID = some client ∧
      (checkRateLimit st now d.clientID client.rateLimit 60).1 = false ∧
      generateAccessToken cfg km subj now jti = some a ∧
      st2 = storeRefreshToken
        (deleteRefreshToken
          (revokeRefreshToken (checkRateLimit st now d.clientID client.rateLimit 60).2
            now tok cfg.refreshTokenExpiry) tok)
        now ntok
        { clientID := d.clientID, subject := some subj,
          expiresAt := now + cfg.refreshTokenExpiry }
        cfg.refreshTokenExpiry ∧
      resp = { accessToken := a, tokenType := "Bearer", expiresIn := cfg.jwtExpiry,
               refreshToken := ntok } := by
  by_cases h1 : tok = ""
  · simp [handleRefreshToken, h1] at h
  cases hd : getRefreshToken st now tok with
  | none => simp [handleRefreshToken, h1, hd] at h
  | some d =>
  cases h2 : isRefreshTokenRevoked st now tok with
  | true => simp [handleRefreshToken, h1, hd, h2] at h
  | false =>
  by_cases h3 : d.expiresAt < now
  · simp [handleRefreshToken, h1, hd, h2, h3] at h
  cases hs : d.subject with
  | none => simp [handleRefreshToken, h1, hd, h2, h3, hs] at h
  | some subj =>
  by_cases h4 : subj.tenantID = path
  case neg => simp [handleRefreshToken, h1, hd, h2, h3, hs, h4] at h
  cases hc : dbGetClient db d.clientID with
  | none => simp [handleRefreshToken, h1, hd, h2, h3, hs, h4, hc] at h
  | some client =>
  cases hrl : (checkRateLimit st now d.clientID client.rateLimit 60).1 with
  | true => simp [handleRefreshToken, h1, hd, h2, h3, hs, h4, hc, hrl] at h
  | false =>
  cases ha : generateAccessToken cfg km subj now jti with
  | none => simp [handleRefreshToken, h1, hd, h2, h3, hs, h4, hc, hrl, ha] at h
  | some a =>
  simp [handleRefreshToken, h1, hd, h2, h3, hs, h4, hc, hrl, ha, Prod.mk.injEq] at h
  exact ⟨h1, d, subj, client, a, rfl, rfl, h3, hs, h4, hc, hrl, ha, h.2.symm, h.1.symm⟩

/-- C1. For every refresh_token grant that succeeds by consuming refresh
token X and returning a new pair, an immediate second refresh_token request
presenting X with the same path tenant fails with InvalidRefreshToken: the
handler either finds no record for X (the record was deleted) or finds the
revocation marker written for X (when the fresh token collides with X), and
in both cases returns the InvalidRefreshToken error without minting tokens
or changing any state. -/
theorem refresh_single_use (cfg : Config) (km : KeyManager) (db : DBState)
    (st : CacheState) (now : Int) (path tok jti ntok jti2 ntok2 : String)
    (resp : TokenResponse) (st2 : CacheState)
    (hcfg : 0 < cfg.refreshTokenExpiry)
    (h : handleRefreshToken cfg km db st now path tok jti ntok = (GrantResult.ok resp, st2)) :
    handleRefreshToken cfg km db st2 now path tok jti2 ntok2 =
      (GrantResult.err ErrInvalidRefreshToken, st2) := by
  obtain ⟨h1, d, subj, client, a, hd, h2, h3, hs, h4, hc, hrl, ha, hst, hresp⟩ :=
    handleRefresh_ok_inv cfg km db st now path tok jti ntok resp st2 h
  by_cases hx : ntok = tok
  · -- the freshly stored token collides with X: the revocation marker blocks it
    have hget : getRefreshToken st2 now tok =
        some { clientID := d.clientID, subject := some subj,
               expiresAt := now + cfg.refreshTokenExpiry } := by
      rw [hst]
      unfold getRefreshToken
      rw [store_refreshTokens, hx, findVal_setKey_self]
      simp [show now < now + cfg.refreshTokenExpiry by omega]
    have hrev : isRefreshTokenRevoked st2 now tok = true := by
      rw [hst]
      unfold isRefreshTokenRevoked
      rw [store_revokedRefresh, delete_revokedRefresh, revoke_revokedRefresh,
        checkRateLimit_revokedRefresh, findVal_setKey_self]
      simp [show now < now + cfg.refreshTokenExpiry by omega]
    simp [handleRefreshToken, h1, hget, hrev]
  · -- the record for X was deleted
    have hget : getRefreshToken st2 now tok = none := by
      rw [hst]
      unfold getRefreshToken
      rw [store_refreshTokens, findVal_setKey_ne _ _ _ _ (fun he => hx he.symm),
        delete_refreshTokens, findVal_eraseKey_self]
    simp [handleRefreshToken, h1, hget]

/-- C2 counterexample. A concrete successful rotation in which the consumed
token's remaining lifetime is 50 seconds (stored expires_at 100, now 50) but
the revocation marker is written with the full configured refresh lifetime
604800: the marker's expiry is 50 + 604800, not 50 + 50, refuting the claim
that the marker TTL equals the token's remaining lifetime. -/
theorem refresh_revocation_ttl_cex :
    (handleRefreshToken
      { jwtIssuer := "iss", jwtAudience := "aud", jwtExpiry := 3600,
        refreshTokenExpiry := 604800, refreshTokenLength := 32 }
      { keys := [("k1", { keyID := "k1", createdAt := 0, expiresAt := none, isActive := true })],
        currentKeyID := "k1" }
      { clients := [("c1", { clientID := "c1", clientSecretHash := "h", rateLimit := 10,
                             createdAt := 0, updatedAt := 0 })],
        tenants := ["t1"], users := [], userRoles := [] }
      { clients := [],
        refreshTokens := [("X",
          ({ clientID := "c1",
             subject := some { userID := "u1", tenantID := "t1", roles := [], scopes := [] },
             expiresAt := 100 }, 100))],
        revokedRefresh := [], revokedJti := [], rateCounters := [], log := [] }
      50 "t1" "X" "j1" "R2").1.isOk = true ∧
    findVal (handleRefreshToken
      { jwtIssuer := "iss", jwtAudience := "aud", jwtExpiry := 3600,
        refreshTokenExpiry := 604800, refreshTokenLength := 32 }
      { keys := [("k1", { keyID := "k1", createdAt := 0, expiresAt := none, isActive := true })],
        currentKeyID := "k1" }
      { clients := [("c1", { clientID := "c1", clientSecretHash := "h", rateLimit := 10,
                             createdAt := 0, updatedAt := 0 })],
        tenants := ["t1"], users := [], userRoles := [] }
      { clients := [],
        refreshTokens := [("X",
          ({ clientID := "c1",
             subject := some { userID := "u1", tenantID := "t1", roles := [], scopes := [] },
             expiresAt := 100 }, 100))],
        revokedRefresh := [], revokedJti := [], rateCounters := [], log := [] }
      50 "t1" "X" "j1" "R2").2.revokedRefresh "X" = some (50 + 604800) ∧
    (50 : Int) + 604800 ≠ 50 + (100 - 50) := by
  refine ⟨?_, ?_, by decide⟩ <;> decide

/-- C2 amended. During a successful refresh_token rotation the revocation
marker written for the consumed token has TTL equal to the configured
refresh-token lifetime (config.RefreshTokenExpiry), not the token's
remaining lifetime, and it is written before the refresh-token record is
deleted: starting from an empty mutation trace, the trace of a successful
rotation is exactly revoke (with the configured TTL), then delete, then the
store of the new record. -/
theorem refresh_revocation_marker_ttl_order (cfg : Config) (km : KeyManager) (db : DBState)
    (st : CacheState) (now : Int) (path tok jti ntok : String) (resp : TokenResponse)
    (st2 : CacheState) (hlog : st.log = [])
    (h : handleRefreshToken cfg km db st now path tok jti ntok = (GrantResult.ok resp, st2)) :
    findVal st2.revokedRefresh tok = some (now + cfg.refreshTokenExpiry) ∧
    st2.log = [CacheOp.revoke tok cfg.refreshTokenExpiry, CacheOp.delete tok,
               CacheOp.store ntok cfg.refreshTokenExpiry] := by
  obtain ⟨h1, d, subj, client, a, hd, h2, h3, hs, h4, hc, hrl, ha, hst, hresp⟩ :=
    handleRefresh_ok_inv cfg km db st now path tok jti ntok resp st2 h
  subst hst
  constructor
  · rw [store_revokedRefresh, delete_revokedRefresh, revoke_revokedRefresh,
      checkRateLimit_revokedRefresh, findVal_setKey_self]
  · rw [store_log, delete_log, revoke_log, checkRateLimit_log, hlog]
    rfl

/-- C3. For every refresh_token grant where the stored record's subject is
present but its tenant_id differs from the tenant id taken from the request
path, or the subject is absent, the request fails with InvalidRefreshToken
(HTTP 401, code INVALID_REFRESH_TOKEN) and no new tokens are issued: the
handler returns the error with the cache state unchanged. -/
theorem refresh_tenant_mismatch_rejected (cfg : Config) (km : KeyManager) (db : DBState)
    (st : CacheState) (now : Int) (path tok jti ntok : String) (d : RefreshTokenData)
    (hd : getRefreshToken st now tok = some d)
    (hmis : d.subject = none ∨ ∃ s, d.subject = some s ∧ s.tenantID ≠ path) :
    handleRefreshToken cfg km db st now path tok jti ntok =
      (GrantResult.err ErrInvalidRefreshToken, st) ∧
    ErrInvalidRefreshToken.status = 401 ∧
    ErrInvalidRefreshToken.code = "INVALID_REFRESH_TOKEN" := by
  refine ⟨?_, rfl, rfl⟩
  by_cases h1 : tok = ""
  · simp [handleRefreshToken, h1]
  cases h2 : isRefreshTokenRevoked st now tok with
  | true => simp [handleRefreshToken, h1, hd, h2]
  | false =>
  by_cases h3 : d.expiresAt < now
  · simp [handleRefreshToken, h1, hd, h2, h3]
  rcases hmis with hnone | ⟨s, hsome, hne⟩
  · simp [handleRefreshToken, h1, hd, h2, h3, hnone]
  · simp [handleRefreshToken, h1, hd, h2, h3, hsome, hne]

/-! ### Concrete fixtures used by the witnesses -/

/-- Fixture configuration (the Go defaults: 1h access TTL, 7d refresh TTL,
32 random bytes). -/
def fxCfg : Config :=
  { jwtIssuer := "iss", jwtAudience := "aud", jwtExpiry := 3600,
    refreshTokenExpiry := 604800, refreshTokenLength := 32 }

/-- Fixture signing key. -/
def fxKey : KeyPair :=
  { keyID := "k1", createdAt := 0, expiresAt := none, isActive := true }

/-- Fixture key manager with one active current key. -/
def fxKm : KeyManager :=
  { keys := [("k1", fxKey)], currentKeyID := "k1" }

/-- Fixture client with rate limit 2. -/
def fxClient : Client :=
  { clientID := "c1", clientSecretHash := "sec", rateLimit := 2, createdAt := 0, updatedAt := 0 }

/-- Fixture token subject. -/
def fxSubj : TokenSubject :=
  { userID := "u1", tenantID := "t1", roles := [], scopes := [] }

/-- Fixture database: one client, one tenant, one user with one role. -/
def fxDb : DBState :=
  { clients := [("c1", fxClient)], tenants := ["t1"],
    users := [("u1", { id := "u1", tenantID := "t1", email := none, fullName := "F",
                       phoneNumber := "P" })],
    userRoles := [("u1", "old")] }

/-- Empty cache fixture. -/
def fxEmptyCache : CacheState :=
  { clients := [], refreshTokens := [], revokedRefresh := [], revokedJti := [],
    rateCounters := [], log := [] }

/-- Cache holding one refresh-token record for token X. -/
def fxRefreshCache : CacheState :=
  { fxEmptyCache with refreshTokens :=
      [("X", ({ clientID := "c1", subject := some fxSubj, expiresAt := 604800 }, 604800))] }

/-- The response of the fixture rotation at time 50. -/
def fxResp1 : TokenResponse :=
  { accessToken :=
      { alg := "RS256", kid := some "k1",
        claims := [("iss", CVal.str "iss"), ("aud", CVal.str "aud"),
                   ("exp", CVal.int 3650), ("iat", CVal.int 50), ("jti", CVal.str "j1"),
                   ("sub", CVal.str "u1"), ("oid", CVal.str "u1"), ("tid", CVal.str "t1")],
        sigKid := "k1" },
    tokenType := "Bearer", expiresIn := 3600, refreshToken := "R2" }

/-- The cache state after the fixture rotation at time 50. -/
def fxSt2 : CacheState :=
  { clients := [],
    refreshTokens :=
      [("R2", ({ clientID := "c1", subject := some fxSubj, expiresAt := 604850 }, 604850))],
    revokedRefresh := [("X", 604850)], revokedJti := [],
    rateCounters := [("c1", (1, some 110))],
    log := [CacheOp.revoke "X" 604800, CacheOp.delete "X", CacheOp.store "R2" 604800] }

/-- C1 witness: the fixture rotation at time 50 succeeds, and the immediate
second use of X against the resulting state is rejected with
InvalidRefreshToken, leaving the state unchanged. -/
theorem refresh_single_use_witness :
    handleRefreshToken fxCfg fxKm fxDb fxSt2 50 "t1" "X" "j2" "R3" =
      (GrantResult.err ErrInvalidRefreshToken, fxSt2) :=
  refresh_single_use fxCfg fxKm fxDb fxRefreshCache 50 "t1" "X" "j1" "R2" "j2" "R3"
    fxResp1 fxSt2 (by decide) (by decide)

/-- C2 amended witness: in the fixture rotation the revocation marker for X
expires at 50 + 604800 (the configured lifetime, although the record had
604750 seconds of residual life) and the trace is revoke, delete, store. -/
theorem refresh_revocation_marker_ttl_order_witness :
    findVal fxSt2.revokedRefresh "X" = some (50 + 604800) ∧
    fxSt2.log = [CacheOp.revoke "X" 604800, CacheOp.delete "X", CacheOp.store "R2" 604800] :=
  refresh_revocation_marker_ttl_order fxCfg fxKm fxDb fxRefreshCache 50 "t1" "X" "j1" "R2"
    fxResp1 fxSt2 (by decide) (by decide)

/-- Cache holding a refresh-token record whose subject belongs to tenant t2. -/
def fxMismatchCache : CacheState :=
  { fxEmptyCache with refreshTokens :=
      [("X", ({ clientID := "c1",
                subject := some { userID := "u1", tenantID := "t2", roles := [], scopes := [] },
                expiresAt := 604800 }, 604800))] }

/-- C3 witness: presenting under path tenant t1 a refresh token whose record
carries tenant t2 yields InvalidRefreshToken with the cache unchanged. -/
theorem refresh_tenant_mismatch_rejected_witness :
    handleRefreshToken fxCfg fxKm fxDb fxMismatchCache 50 "t1" "X" "j1" "R2" =
      (GrantResult.err ErrInvalidRefreshToken, fxMismatchCache) ∧
    ErrInvalidRefreshToken.status = 401 ∧
    ErrInvalidRefreshToken.code = "INVALID_REFRESH_TOKEN" :=
  refresh_tenant_mismatch_rejected fxCfg fxKm fxDb fxMismatchCache 50 "t1" "X" "j1" "R2"
    { clientID := "c1",
      subject := some { userID := "u1", tenantID := "t2", roles := [], scopes := [] },
      expiresAt := 604800 }
    (by decide)
    (Or.inr ⟨{ userID := "u1", tenantID := "t2", roles := [], scopes := [] }, rfl, by decide⟩)

/-! ### Base64 padding facts (claim C6) -/

theorem b64Char_ne_pad (n : Nat) : b64Char n ≠ '=' := by
  unfold b64Char
  have h : ∀ (l : List Char) (m : Nat), (∀ c ∈ l, c ≠ '=') → l.getD m 'A' ≠ '=' := by
    intro l
    induction l with
    | nil => intro m _; simp [List.getD]
    | cons c cs ih =>
      intro m hm
      cases m with
      | zero => simpa using hm c (by simp)
      | succ m2 =>
        rw [List.getD_cons_succ]
        exact ih m2 (fun x hx => hm x (by simp [hx]))
  exact h b64UrlChars n (by decide)

theorem pad_ne_b64Char (n : Nat) : ('=' : Char) ≠ b64Char n :=
  fun h => b64Char_ne_pad n h.symm

theorem b64_pad_count (l : List Nat) :
    (base64UrlEncode l).count '=' =
      if l.length % 3 = 0 then 0 else if l.length % 3 = 1 then 2 else 1 := by
  induction l using base64UrlEncode.induct with
  | case1 => simp [base64UrlEncode]
  | case2 b1 => simp [base64UrlEncode, List.count_cons, pad_ne_b64Char]
  | case3 b1 b2 => simp [base64UrlEncode, List.count_cons, pad_ne_b64Char]
  | case4 b1 b2 b3 rest ih =>
    have hm : (b1 :: b2 :: b3 :: rest).length % 3 = rest.length % 3 := by
      simp [List.length_cons]
      omega
    rw [hm]
    simp only [base64UrlEncode, List.count_cons, ih]
    simp [b64Char_ne_pad]

theorem b64_length (l : List Nat) :
    (base64UrlEncode l).length =
      if l.length % 3 = 0 then l.length / 3 * 4 else l.length / 3 * 4 + 4 := by
  induction l using base64UrlEncode.induct with
  | case1 => simp [base64UrlEncode]
  | case2 b1 => simp [base64UrlEncode]
  | case3 b1 b2 => simp [base64UrlEncode]
  | case4 b1 b2 b3 rest ih =>
    have h3 : (b1 :: b2 :: b3 :: rest).length = rest.length + 3 := by
      simp [List.length_cons]
    rw [h3]
    have hm : (rest.length + 3) % 3 = rest.length % 3 := by omega
    have hd : (rest.length + 3) / 3 = rest.length / 3 + 1 := by omega
    simp only [base64UrlEncode, List.length_cons, ih, hm, hd]
    by_cases h0 : rest.length % 3 = 0
    · rw [if_pos h0, if_pos h0]
      omega
    · rw [if_neg h0, if_neg h0]
      omega

/-- C6 counterexample. With the configured length 32, the token minted from
32 zero bytes is 43 alphabet characters followed by a padding character:
Go base64.URLEncoding pads, so the returned string does contain an
equals sign, refuting the no-padding claim. -/
theorem refresh_token_padding_cex :
    generateRefreshToken fxCfg (List.replicate 32 0) =
      some "AAAAAAAAAAAAAAAAAAAAAAAAAAAAAAAAAAAAAAAAAAA=" ∧
    ("AAAAAAAAAAAAAAAAAAAAAAAAAAAAAAAAAAAAAAAAAAA=" : String).toList.count '=' = 1 := by
  constructor
  · decide
  · decide

/-- C6 amended. GenerateRefreshToken consumes exactly N cryptographically
random bytes, where N is the configured refresh-token byte length, writes no
state, and returns their URL-safe base64 encoding WITH standard padding: for
N = 32 the returned string has length 44 and contains exactly one padding
character. -/
theorem refresh_token_padded (cfg : Config) (bytes : List Nat)
    (h32 : cfg.refreshTokenLength = 32) (hlen : bytes.length = 32) :
    ∃ s, generateRefreshToken cfg bytes = some s ∧
      s.toList.count '=' = 1 ∧ s.length = 44 := by
  refine ⟨String.mk (base64UrlEncode bytes), ?_, ?_, ?_⟩
  · simp [generateRefreshToken, hlen, h32]
  · have h := b64_pad_count bytes
    rw [hlen] at h
    simpa using h
  · have h := b64_length bytes
    rw [hlen] at h
    simp only [String.length]
    simpa using h

/-- C6 amended witness: 32 zero bytes mint to a 44-character token with one
padding character. -/
theorem refresh_token_padded_witness :
    ∃ s, generateRefreshToken fxCfg (List.replicate 32 0) = some s ∧
      s.toList.count '=' = 1 ∧ s.length = 44 :=
  refresh_token_padded fxCfg (List.replicate 32 0) (by decide) (by decide)

/-- C10. In the verify endpoint the path-tenant check is applied only when
the validated claims contain a string tid: any token that passes validation
but carries no tid claim, or a non-string one, yields HTTP 200 with
valid:true and the claims, regardless of the path tenant. -/
theorem verify_no_tid_skips_tenant_check (cfg : Config) (km : KeyManager) (st : CacheState)
    (now : Int) (path : String) (t : Jwt) (cs : List (String × CVal))
    (hp : path ≠ "")
    (hv : validateToken cfg km st now t = Except.ok cs)
    (htid : ∀ s, lookupClaim cs "tid" ≠ some (CVal.str s)) :
    handleVerify cfg km st now path (some (TokenField.jwt t)) =
      VerifyResult.okJson 200 { valid := true, claims := some cs, message := none } := by
  cases hl : lookupClaim cs "tid" with
  | none => simp [handleVerify, hp, hv, hl]
  | some v =>
    cases v with
    | str s => exact absurd hl (htid s)
    | int n => simp [handleVerify, hp, hv, hl]
    | arr l2 => simp [handleVerify, hp, hv, hl]
    | boolean b => simp [handleVerify, hp, hv, hl]

/-- A token with no tid claim, signed by the fixture key. -/
def fxNoTidTok : Jwt :=
  { alg := "RS256", kid := some "k1",
    claims := [("iss", CVal.str "iss"), ("aud", CVal.str "aud")], sigKid := "k1" }

/-- C10 witness: verifying the tid-less fixture token under path tenant t1
returns 200 valid:true with its claims. -/
theorem verify_no_tid_skips_tenant_check_witness :
    handleVerify fxCfg fxKm fxEmptyCache 0 "t1" (some (TokenField.jwt fxNoTidTok)) =
      VerifyResult.okJson 200
        { valid := true, claims := some fxNoTidTok.claims, message := none } :=
  verify_no_tid_skips_tenant_check fxCfg fxKm fxEmptyCache 0 "t1" fxNoTidTok
    fxNoTidTok.claims (by decide) (by decide)
    (by
      intro s h
      have hnone : lookupClaim fxNoTidTok.claims "tid" = none := by decide
      rw [hnone] at h
      exact Option.noConfusion h)

/-- C7. Expiry is exclusive: under a key resolvable at every instant, with
matching issuer and audience, an integer exp claim, no nbf, and an
unrevoked jti, validation succeeds exactly while now < exp; in particular it
succeeds at exp - 1 and fails at exactly exp.  (The jwt/v5 claims validator
requires now strictly before exp; the handler's own re-check now > exp is
weaker and subsumed.) -/
theorem exp_boundary_exclusive (cfg : Config) (km : KeyManager) (st : CacheState)
    (t : Jwt) (e : Int) (k : String)
    (halg : t.alg = "RS256") (hkid : t.kid = some k) (hk : k ≠ "")
    (hkey : ∀ n : Int, getPublicKeyByID km n k = Except.ok t.sigKid)
    (hiss : lookupClaim t.claims "iss" = some (CVal.str cfg.jwtIssuer))
    (haud : lookupClaim t.claims "aud" = some (CVal.str cfg.jwtAudience))
    (hexp : lookupClaim t.claims "exp" = some (CVal.int e))
    (hnbf : lookupClaim t.claims "nbf" = none)
    (hjti : ∀ (n : Int) (j : String), lookupClaim t.claims "jti" = some (CVal.str j) →
      isTokenRevoked st n j = false) :
    ∀ now : Int, validateToken cfg km st now t = Except.ok t.claims ↔ now < e := by
  intro now
  by_cases hlt : now < e
  · have hnot : ¬ e < now := by omega
    constructor
    · intro _
      exact hlt
    · intro _
      cases hj : lookupClaim t.claims "jti" with
      | none =>
        simp [validateToken, halg, hkid, hk, hkey, expClaimOk, nbfClaimOk, hexp, hnbf,
          hiss, haud, hj, hlt, hnot]
      | some v =>
        cases v with
        | str j =>
          by_cases hjq : j = ""
          · simp [validateToken, halg, hkid, hk, hkey, expClaimOk, nbfClaimOk, hexp, hnbf,
              hiss, haud, hj, hjq, hlt, hnot]
          · simp [validateToken, halg, hkid, hk, hkey, expClaimOk, nbfClaimOk, hexp, hnbf,
              hiss, haud, hj, hjq, hjti now j hj, hlt, hnot]
        | int n2 =>
          simp [validateToken, halg, hkid, hk, hkey, expClaimOk, nbfClaimOk, hexp, hnbf,
            hiss, haud, hj, hlt, hnot]
        | arr l2 =>
          simp [validateToken, halg, hkid, hk, hkey, expClaimOk, nbfClaimOk, hexp, hnbf,
            hiss, haud, hj, hlt, hnot]
        | boolean b =>
          simp [validateToken, halg, hkid, hk, hkey, expClaimOk, nbfClaimOk, hexp, hnbf,
            hiss, haud, hj, hlt, hnot]
  · constructor
    · intro hok
      exfalso
      simp [validateToken, halg, hkid, hk, hkey, expClaimOk, hexp, hlt] at hok
    · intro hc
      exact absurd hc hlt

/-- A fixture token with exp = 100 signed by the fixture key. -/
def fxExpTok : Jwt :=
  { alg := "RS256", kid := some "k1",
    claims := [("iss", CVal.str "iss"), ("aud", CVal.str "aud"), ("exp", CVal.int 100),
               ("iat", CVal.int 0), ("jti", CVal.str "j1"), ("sub", CVal.str "u1"),
               ("oid", CVal.str "u1"), ("tid", CVal.str "t1")],
    sigKid := "k1" }

/-- C7 witness: the fixture token with exp = 100 verifies at 99 and is
rejected at exactly 100. -/
theorem exp_boundary_exclusive_witness :
    validateToken fxCfg fxKm fxEmptyCache 99 fxExpTok = Except.ok fxExpTok.claims ∧
    ¬ validateToken fxCfg fxKm fxEmptyCache 100 fxExpTok = Except.ok fxExpTok.claims := by
  have h := exp_boundary_exclusive fxCfg fxKm fxEmptyCache fxExpTok 100 "k1"
    (by decide) (by decide) (by decide)
    (fun n => rfl)
    (by decide) (by decide) (by decide) (by decide)
    (fun n j hl => rfl)
  exact ⟨(h 99).mpr (by decide), fun hc => absurd ((h 100).mp hc) (by decide)⟩

/-! ### Lookup facts about the minted claims map (claim C4) -/

theorem accessClaims_lookup_iss (cfg : Config) (S : TokenSubject) (now : Int) (jti : String) :
    lookupClaim (accessClaims cfg S now jti) "iss" = some (CVal.str cfg.jwtIssuer) := by
  simp [accessClaims, lookupClaim, findVal]

theorem accessClaims_lookup_aud (cfg : Config) (S : TokenSubject) (now : Int) (jti : String) :
    lookupClaim (accessClaims cfg S now jti) "aud" = some (CVal.str cfg.jwtAudience) := by
  simp [accessClaims, lookupClaim, findVal]

theorem accessClaims_lookup_exp (cfg : Config) (S : TokenSubject) (now : Int) (jti : String) :
    lookupClaim (accessClaims cfg S now jti) "exp" = some (CVal.int (now + cfg.jwtExpiry)) := by
  simp [accessClaims, lookupClaim, findVal]

theorem accessClaims_lookup_jti (cfg : Config) (S : TokenSubject) (now : Int) (jti : String) :
    lookupClaim (accessClaims cfg S now jti) "jti" = some (CVal.str jti) := by
  simp [accessClaims, lookupClaim, findVal]

theorem accessClaims_lookup_sub (cfg : Config) (S : TokenSubject) (now : Int) (jti : String) :
    lookupClaim (accessClaims cfg S now jti) "sub" = some (CVal.str S.userID) := by
  simp [accessClaims, lookupClaim, findVal]

theorem accessClaims_lookup_oid (cfg : Config) (S : TokenSubject) (now : Int) (jti : String) :
    lookupClaim (accessClaims cfg S now jti) "oid" = some (CVal.str S.userID) := by
  simp [accessClaims, lookupClaim, findVal]

theorem accessClaims_lookup_tid (cfg : Config) (S : TokenSubject) (now : Int) (jti : String) :
    lookupClaim (accessClaims cfg S now jti) "tid" = some (CVal.str S.tenantID) := by
  simp [accessClaims, lookupClaim, findVal]

theorem accessClaims_lookup_nbf (cfg : Config) (S : TokenSubject) (now : Int) (jti : String) :
    lookupClaim (accessClaims cfg S now jti) "nbf" = none := by
  by_cases hr : S.roles.length > 0 <;> by_cases hs : S.scopes.length > 0 <;>
    simp [accessClaims, lookupClaim, findVal, hr, hs]

theorem accessClaims_lookup_roles_pos (cfg : Config) (S : TokenSubject) (now : Int)
    (jti : String) (h : S.roles ≠ []) :
    lookupClaim (accessClaims cfg S now jti) "roles" = some (CVal.arr S.roles) := by
  have hl : S.roles.length > 0 := List.length_pos.mpr h
  by_cases hs : S.scopes.length > 0 <;> simp [accessClaims, lookupClaim, findVal, hl, hs]

theorem accessClaims_lookup_roles_nil (cfg : Config) (S : TokenSubject) (now : Int)
    (jti : String) (h : S.roles = []) :
    lookupClaim (accessClaims cfg S now jti) "roles" = none := by
  have hl : ¬ S.roles.length > 0 := by simp [h]
  by_cases hs : S.scopes.length > 0 <;> simp [accessClaims, lookupClaim, findVal, hl, hs]

theorem accessClaims_lookup_scp_pos (cfg : Config) (S : TokenSubject) (now : Int)
    (jti : String) (h : S.scopes ≠ []) :
    lookupClaim (accessClaims cfg S now jti) "scp" = some (CVal.arr S.scopes) := by
  have hl : S.scopes.length > 0 := List.length_pos.mpr h
  by_cases hr : S.roles.length > 0 <;> simp [accessClaims, lookupClaim, findVal, hl, hr]

theorem accessClaims_lookup_scp_nil (cfg : Config) (S : TokenSubject) (now : Int)
    (jti : String) (h : S.scopes = []) :
    lookupClaim (accessClaims cfg S now jti) "scp" = none := by
  have hl : ¬ S.scopes.length > 0 := by simp [h]
  by_cases hr : S.roles.length > 0 <;> simp [accessClaims, lookupClaim, findVal, hl, hr]

/-- C4. Mint-then-verify round trip: for any subject S, when the key manager
has a usable current key (present, active, not expired, non-empty kid), the
access TTL is positive and the fresh jti is non-empty and unrevoked,
validating the freshly minted token with the current key succeeds and its
claims satisfy sub = oid = S.user_id, tid = S.tenant_id, roles = S.roles
when non-empty (absent when empty), and scp = S.scopes when non-empty
(absent when empty). -/
theorem mint_then_verify (cfg : Config) (km : KeyManager) (st : CacheState)
    (S : TokenSubject) (now : Int) (jti : String) (K : KeyPair)
    (hK : findVal km.keys km.currentKeyID = some K)
    (hact : K.isActive = true)
    (hcur : km.currentKeyID ≠ "")
    (hexp : ∀ x, K.expiresAt = some x → ¬ x < now)
    (httl : 0 < cfg.jwtExpiry)
    (hjti : jti ≠ "")
    (hrev : isTokenRevoked st now jti = false) :
    ∃ t, generateAccessToken cfg km S now jti = some t ∧
      validateToken cfg km st now t = Except.ok t.claims ∧
      lookupClaim t.claims "sub" = some (CVal.str S.userID) ∧
      lookupClaim t.claims "oid" = some (CVal.str S.userID) ∧
      lookupClaim t.claims "tid" = some (CVal.str S.tenantID) ∧
      (S.roles ≠ [] → lookupClaim t.claims "roles" = some (CVal.arr S.roles)) ∧
      (S.roles = [] → lookupClaim t.claims "roles" = none) ∧
      (S.scopes ≠ [] → lookupClaim t.claims "scp" = some (CVal.arr S.scopes)) ∧
      (S.scopes = [] → lookupClaim t.claims "scp" = none) := by
  have hpriv : getPrivateKey km = some K.keyID := by
    simp [getPrivateKey, hK, hact]
  have hgen : generateAccessToken cfg km S now jti =
      some { alg := "RS256", kid := some km.currentKeyID,
             claims := accessClaims cfg S now jti, sigKid := K.keyID } := by
    simp [generateAccessToken, hpriv, getCurrentKeyID, hcur]
  have hpub : getPublicKeyByID km now km.currentKeyID = Except.ok K.keyID := by
    cases hKe : K.expiresAt with
    | none => simp [getPublicKeyByID, hK, hact, hKe]
    | some x => simp [getPublicKeyByID, hK, hact, hKe, hexp x hKe]
  refine ⟨_, hgen, ?_,
    accessClaims_lookup_sub cfg S now jti,
    accessClaims_lookup_oid cfg S now jti,
    accessClaims_lookup_tid cfg S now jti,
    fun h => accessClaims_lookup_roles_pos cfg S now jti h,
    fun h => accessClaims_lookup_roles_nil cfg S now jti h,
    fun h => accessClaims_lookup_scp_pos cfg S now jti h,
    fun h => accessClaims_lookup_scp_nil cfg S now jti h⟩
  simp [validateToken, hcur, hpub, expClaimOk, nbfClaimOk,
    accessClaims_lookup_exp, accessClaims_lookup_nbf, accessClaims_lookup_iss,
    accessClaims_lookup_aud, accessClaims_lookup_jti, hjti, hrev,
    show now < now + cfg.jwtExpiry by omega,
    show ¬ now + cfg.jwtExpiry < now by omega]

/-- C4 witness: the round trip at the fixtures with roles [admin] and no
scopes. -/
theorem mint_then_verify_witness :
    ∃ t, generateAccessToken fxCfg fxKm
        { userID := "u1", tenantID := "t1", roles := ["admin"], scopes := [] } 0 "j1" =
        some t ∧
      validateToken fxCfg fxKm fxEmptyCache 0 t = Except.ok t.claims ∧
      lookupClaim t.claims "sub" = some (CVal.str "u1") ∧
      lookupClaim t.claims "oid" = some (CVal.str "u1") ∧
      lookupClaim t.claims "tid" = some (CVal.str "t1") ∧
      ((["admin"] : List String) ≠ [] →
        lookupClaim t.claims "roles" = some (CVal.arr ["admin"])) ∧
      ((["admin"] : List String) = [] → lookupClaim t.claims "roles" = none) ∧
      (([] : List String) ≠ [] → lookupClaim t.claims "scp" = some (CVal.arr [])) ∧
      (([] : List String) = [] → lookupClaim t.claims "scp" = none) :=
  mint_then_verify fxCfg fxKm fxEmptyCache
    { userID := "u1", tenantID := "t1", roles := ["admin"], scopes := [] } 0 "j1" fxKey
    (by decide) (by decide) (by decide)
    (fun x hx => Option.noConfusion hx)
    (by decide) (by decide) rfl

/-! ### Key rotation (claim C8) -/

theorem findVal_map_update {α : Type} (l : List (String × α)) (k : String) (g : α → α)
    (k2 : String) :
    findVal (l.map (fun x => if x.1 == k then (x.1, g x.2) else x)) k2 =
      if k2 = k then (findVal l k2).map g else findVal l k2 := by
  induction l with
  | nil => by_cases h : k2 = k <;> simp [findVal, h]
  | cons x xs ih =>
    simp only [List.map_cons]
    by_cases hxk : x.1 = k
    · rw [if_pos (by simp [hxk])]
      by_cases hx2 : x.1 = k2
      · have hk2k : k2 = k := by rw [← hx2, hxk]
        rw [findVal_cons_eq (x.1, g x.2) _ k2 hx2, if_pos hk2k, findVal_cons_eq x xs k2 hx2]
        rfl
      · rw [findVal_cons_ne (x.1, g x.2) _ k2 hx2, ih]
        by_cases hk2k : k2 = k
        · rw [if_pos hk2k, if_pos hk2k, findVal_cons_ne x xs k2 hx2]
        · rw [if_neg hk2k, if_neg hk2k, findVal_cons_ne x xs k2 hx2]
    · rw [if_neg (by simp [hxk])]
      by_cases hx2 : x.1 = k2
      · have hk2k : ¬ k2 = k := fun hh => hxk (by rw [hx2, hh])
        rw [findVal_cons_eq x _ k2 hx2, if_neg hk2k, findVal_cons_eq x xs k2 hx2]
      · rw [findVal_cons_ne x _ k2 hx2, ih]
        by_cases hk2k : k2 = k
        · rw [if_pos hk2k, if_pos hk2k, findVal_cons_ne x xs k2 hx2]
        · rw [if_neg hk2k, if_neg hk2k, findVal_cons_ne x xs k2 hx2]

/-- Validation fails outright when the keyfunc cannot resolve the kid. -/
theorem validateToken_err_key (cfg : Config) (km : KeyManager) (st : CacheState) (now : Int)
    (tok : Jwt) (kname e2 : String)
    (halg : tok.alg = "RS256") (hkid2 : tok.kid = some kname) (hkname : kname ≠ "")
    (hkey : getPublicKeyByID km now kname = Except.error e2) :
    validateToken cfg km st now tok = Except.error e2 := by
  simp [validateToken, halg, hkid2, hkname, hkey]

/-- Validation succeeds when the kid resolves, the signature matches, and
every claim check passes. -/
theorem validateToken_ok (cfg : Config) (km : KeyManager) (st : CacheState) (now : Int)
    (tok : Jwt) (kname pub : String)
    (halg : tok.alg = "RS256") (hkid2 : tok.kid = some kname) (hkname : kname ≠ "")
    (hkey : getPublicKeyByID km now kname = Except.ok pub)
    (hsig : tok.sigKid = pub)
    (hexpok : expClaimOk tok.claims now = true)
    (hnbfok : nbfClaimOk tok.claims now = true)
    (hiss : lookupClaim tok.claims "iss" = some (CVal.str cfg.jwtIssuer))
    (haud : lookupClaim tok.claims "aud" = some (CVal.str cfg.jwtAudience))
    (hjti : ∀ j, lookupClaim tok.claims "jti" = some (CVal.str j) → j ≠ "" →
      isTokenRevoked st now j = false) :
    validateToken cfg km st now tok = Except.ok tok.claims := by
  cases hE : lookupClaim tok.claims "exp" with
  | none =>
    cases hJ : lookupClaim tok.claims "jti" with
    | none => simp [validateToken, halg, hkid2, hkname, hkey, hsig, hexpok, hnbfok,
        hiss, haud, hE, hJ]
    | some v =>
      cases v with
      | str j =>
        by_cases hjq : j = ""
        · simp [validateToken, halg, hkid2, hkname, hkey, hsig, hexpok, hnbfok,
            hiss, haud, hE, hJ, hjq]
        · simp [validateToken, halg, hkid2, hkname, hkey, hsig, hexpok, hnbfok,
            hiss, haud, hE, hJ, hjq, hjti j hJ hjq]
      | int n2 => simp [validateToken, halg, hkid2, hkname, hkey, hsig, hexpok, hnbfok,
          hiss, haud, hE, hJ]
      | arr l2 => simp [validateToken, halg, hkid2, hkname, hkey, hsig, hexpok, hnbfok,
          hiss, haud, hE, hJ]
      | boolean b => simp [validateToken, halg, hkid2, hkname, hkey, hsig, hexpok, hnbfok,
          hiss, haud, hE, hJ]
  | some v =>
    cases v with
    | int e =>
      have hte : now < e := by simpa [expClaimOk, hE] using hexpok
      have hnot : ¬ e < now := by omega
      cases hJ : lookupClaim tok.claims "jti" with
      | none => simp [validateToken, halg, hkid2, hkname, hkey, hsig, hexpok, hnbfok,
          hiss, haud, hE, hJ, hnot]
      | some v2 =>
        cases v2 with
        | str j =>
          by_cases hjq : j = ""
          · simp [validateToken, halg, hkid2, hkname, hkey, hsig, hexpok, hnbfok,
              hiss, haud, hE, hJ, hjq, hnot]
          · simp [validateToken, halg, hkid2, hkname, hkey, hsig, hexpok, hnbfok,
              hiss, haud, hE, hJ, hjq, hjti j hJ hjq, hnot]
        | int n2 => simp [validateToken, halg, hkid2, hkname, hkey, hsig, hexpok, hnbfok,
            hiss, haud, hE, hJ, hnot]
        | arr l2 => simp [validateToken, halg, hkid2, hkname, hkey, hsig, hexpok, hnbfok,
            hiss, haud, hE, hJ, hnot]
        | boolean b => simp [validateToken, halg, hkid2, hkname, hkey, hsig, hexpok, hnbfok,
            hiss, haud, hE, hJ, hnot]
    | str s =>
      exfalso
      simp [expClaimOk, hE] at hexpok
    | arr l2 =>
      exfalso
      simp [expClaimOk, hE] at hexpok
    | boolean b =>
      exfalso
      simp [expClaimOk, hE] at hexpok

/-- C8. Rotation grace window: after RotateKeys(grace) on a manager whose
current key K1 is active, K1's expires_at becomes rotation time + grace; no
key other than K1 (and the freshly added one) is touched; K1 is still
resolvable by kid at any time before its expires_at, so a token minted
under K1 still validates then (its other claim checks passing); and at any
time after expires_at the kid lookup fails with the key-expired error, so
validation fails. -/
theorem rotation_grace_window (km : KeyManager) (now grace : Int) (newKid : String)
    (K1 : KeyPair)
    (hcurne : km.currentKeyID ≠ "")
    (hK1 : findVal km.keys km.currentKeyID = some K1)
    (hact : K1.isActive = true)
    (hnew : newKid ≠ km.currentKeyID) :
    findVal (rotateKeys km now grace newKid).keys km.currentKeyID =
      some { K1 with expiresAt := some (now + grace) } ∧
    (∀ kid2, kid2 ≠ km.currentKeyID → kid2 ≠ newKid →
      findVal (rotateKeys km now grace newKid).keys kid2 = findVal km.keys kid2) ∧
    (∀ t, t < now + grace →
      getPublicKeyByID (rotateKeys km now grace newKid) t km.currentKeyID =
        Except.ok K1.keyID) ∧
    (∀ t, now + grace < t →
      getPublicKeyByID (rotateKeys km now grace newKid) t km.currentKeyID =
        Except.error ("key expired: " ++ km.currentKeyID)) ∧
    (∀ (cfg : Config) (st : CacheState) (tok : Jwt) (t : Int),
      tok.alg = "RS256" → tok.kid = some km.currentKeyID → tok.sigKid = K1.keyID →
      ((now + grace < t →
        ∀ cs, validateToken cfg (rotateKeys km now grace newKid) st t tok ≠ Except.ok cs) ∧
       (t < now + grace →
        expClaimOk tok.claims t = true →
        nbfClaimOk tok.claims t = true →
        lookupClaim tok.claims "iss" = some (CVal.str cfg.jwtIssuer) →
        lookupClaim tok.claims "aud" = some (CVal.str cfg.jwtAudience) →
        (∀ j, lookupClaim tok.claims "jti" = some (CVal.str j) → j ≠ "" →
          isTokenRevoked st t j = false) →
        validateToken cfg (rotateKeys km now grace newKid) st t tok =
          Except.ok tok.claims))) := by
  have hkeys : (rotateKeys km now grace newKid).keys =
      setKey (km.keys.map (fun x =>
        if x.1 == km.currentKeyID then (x.1, stampExpiry (now + grace) x.2) else x)) newKid
        { keyID := newKid, createdAt := now, expiresAt := none, isActive := true } := by
    simp [rotateKeys, hK1]
  have h1 : findVal (rotateKeys km now grace newKid).keys km.currentKeyID =
      some { K1 with expiresAt := some (now + grace) } := by
    rw [hkeys, findVal_setKey_ne _ _ _ _ (fun he => hnew he.symm), findVal_map_update,
      if_pos rfl, hK1]
    rfl
  have h3 : ∀ t, t < now + grace →
      getPublicKeyByID (rotateKeys km now grace newKid) t km.currentKeyID =
        Except.ok K1.keyID := by
    intro t ht
    simp [getPublicKeyByID, h1, hact, show ¬ now + grace < t by omega]
  have h4 : ∀ t, now + grace < t →
      getPublicKeyByID (rotateKeys km now grace newKid) t km.currentKeyID =
        Except.error ("key expired: " ++ km.currentKeyID) := by
    intro t ht
    simp [getPublicKeyByID, h1, hact, ht]
  refine ⟨h1, ?_, h3, h4, ?_⟩
  · intro kid2 hne1 hne2
    rw [hkeys, findVal_setKey_ne _ _ _ _ hne2, findVal_map_update, if_neg hne1]
  · intro cfg st tok t halg hkid2 hsig
    constructor
    · intro hgt cs hcontra
      rw [validateToken_err_key cfg _ st t tok km.currentKeyID _ halg hkid2 hcurne
        (h4 t hgt)] at hcontra
      exact Except.noConfusion hcontra
    · intro hlt hexpok hnbfok hiss haud hjti
      exact validateToken_ok cfg _ st t tok km.currentKeyID K1.keyID halg hkid2 hcurne
        (h3 t hlt) hsig hexpok hnbfok hiss haud hjti

/-- C8 witness: rotating the fixture manager at time 1000 with a 14-day
grace stamps k1 to expire at 1210600; k1 resolves at 1210599 and is
reported expired at 1210601. -/
theorem rotation_grace_window_witness :
    findVal (rotateKeys fxKm 1000 1209600 "k2").keys "k1" =
      some { keyID := "k1", createdAt := 0, expiresAt := some (1000 + 1209600),
             isActive := true } ∧
    getPublicKeyByID (rotateKeys fxKm 1000 1209600 "k2") 1210599 "k1" = Except.ok "k1" ∧
    getPublicKeyByID (rotateKeys fxKm 1000 1209600 "k2") 1210601 "k1" =
      Except.error ("key expired: " ++ "k1") := by
  have h := rotation_grace_window fxKm 1000 1209600 "k2" fxKey
    (by decide) (by decide) (by decide) (by decide)
  exact ⟨h.1, h.2.2.1 1210599 (by decide), h.2.2.2.1 1210601 (by decide)⟩

/-! ### Role replacement on provision_user (claim C9) -/

theorem rolesOf_filter_ne (ur : List (String × String)) (uid : String) :
    rolesOf (ur.filter (fun x => x.1 != uid)) uid = [] := by
  induction ur with
  | nil => rfl
  | cons x xs ih =>
    by_cases hx : x.1 = uid
    · simp only [List.filter_cons, hx]
      simp [ih]
    · simp only [List.filter_cons, rolesOf, hx]
      simp only [rolesOf] at ih
      simp [hx, ih]

theorem rolesOf_append_keyed (base : List (String × String)) (uid : String) (l : List String) :
    rolesOf (base ++ l.map (fun r => (uid, r))) uid = rolesOf base uid ++ l := by
  simp only [rolesOf, List.filter_append, List.map_append]
  congr 1
  induction l with
  | nil => rfl
  | cons r rs ih => simpa [List.filter_cons, List.map_cons] using ih

theorem insertRoles_eq (base : List (String × String)) (uid : String) (l : List String)
    (hmem : ∀ r ∈ l, (uid, r) ∉ base) (hnd : l.Nodup) :
    insertRoles base uid l = base ++ l.map (fun r => (uid, r)) := by
  induction l generalizing base with
  | nil => simp [insertRoles]
  | cons r rs ih =>
    have hnotin : (uid, r) ∉ base := hmem r (by simp)
    have hstep : insertRoles base uid (r :: rs) = insertRoles (base ++ [(uid, r)]) uid rs := by
      simp [insertRoles, hnotin]
    rw [hstep, ih (base ++ [(uid, r)])]
    · simp
    · intro r2 hr2
      simp only [List.mem_append, List.mem_singleton]
      rintro (hin | heq)
      · exact hmem r2 (by simp [hr2]) hin
      · have hr2r : r2 = r := by simpa using heq
        subst hr2r
        exact (List.nodup_cons.mp hnd).1 hr2
    · exact (List.nodup_cons.mp hnd).2

/-- Inversion of a successful provision_user grant on the database state:
the resulting database is the upsert of the user row with the parsed roles,
plus the best-effort updated_at bump. -/
theorem provision_ok_db (cfg : Config) (km : KeyManager)
    (bcryptOK : String → String → Bool) (db : DBState) (st : CacheState) (now : Int)
    (path cid sec uid fname phone email rolesRaw jti ntok sk : String)
    (hpriv : getPrivateKey km = some sk)
    (hok : (handleUserProvisioning cfg km bcryptOK db st now path cid sec uid fname phone
      email rolesRaw jti ntok).1.isOk = true) :
    (handleUserProvisioning cfg km bcryptOK db st now path cid sec uid fname phone email
      rolesRaw jti ntok).2.1 =
      updateClientUpdatedAt
        (upsertUserAndRoles db
          { id := uid, tenantID := path, email := email, fullName := fname,
            phoneNumber := phone }
          (parseRoles rolesRaw)) cid now := by
  have hgen : ∀ (S : TokenSubject) (n : Int) (j : String),
      generateAccessToken cfg km S n j =
        some { alg := "RS256",
               kid := if getCurrentKeyID km ≠ "" then some (getCurrentKeyID km) else none,
               claims := accessClaims cfg S n j, sigKid := sk } := by
    intro S n j
    simp [generateAccessToken, hpriv]
  by_cases h1 : cid = "" ∨ sec = ""
  · simp [handleUserProvisioning, h1, GrantResult.isOk] at hok
  cases hr : resolveClient db st now cid with
  | none => simp [handleUserProvisioning, h1, hr, GrantResult.isOk] at hok
  | some pr =>
  obtain ⟨client, st0⟩ := pr
  by_cases hb : bcryptOK client.clientSecretHash sec
  case neg => simp [handleUserProvisioning, h1, hr, hb, GrantResult.isOk] at hok
  cases hrl : (checkRateLimit st0 now cid client.rateLimit 60).1 with
  | true => simp [handleUserProvisioning, h1, hr, hb, hrl, GrantResult.isOk] at hok
  | false =>
  by_cases h5 : uid = ""
  · simp [handleUserProvisioning, h1, hr, hb, hrl, h5, GrantResult.isOk] at hok
  by_cases h6 : fname = "" ∨ phone = ""
  · simp [handleUserProvisioning, h1, hr, hb, hrl, h5, h6, GrantResult.isOk] at hok
  by_cases h7 : tenantExists db path
  case neg => simp [handleUserProvisioning, h1, hr, hb, hrl, h5, h6, h7, GrantResult.isOk] at hok
  simp [handleUserProvisioning, h1, hr, hb, hrl, h5, h6, h7, hgen]

/-- C9 counterexample. A provision_user grant whose user_roles value is the
non-blank string containing one comma parses (split on commas, trim, drop
empties) to the empty list; the claim then demands the role set be replaced
by the empty list, but the grant succeeds and an immediate get_user_roles
still returns the pre-existing role. -/
theorem provision_blankish_roles_cex :
    ("," : String) ≠ "" ∧
    (((splitCommaAux ("," : String).toList []).map (fun cs => String.mk (trimChars cs))).filter
      (fun s => s != "") = ([] : List String)) ∧
    (handleUserProvisioning fxCfg fxKm (fun hs s2 => hs == s2) fxDb fxEmptyCache 0
      "t1" "c1" "sec" "u1" "F" "P" "" "," "j1" "R1").1.isOk = true ∧
    getUserRoles (handleUserProvisioning fxCfg fxKm (fun hs s2 => hs == s2) fxDb
      fxEmptyCache 0 "t1" "c1" "sec" "u1" "F" "P" "" "," "j1" "R1").2.1 "u1" = ["old"] := by
  refine ⟨by decide, by decide, ?_, ?_⟩ <;> decide

/-- C9 amended. For every provision_user grant that succeeds (with a usable
signing key): when the user_roles form value is blank, or splits/trims to a
list with no non-empty entries (the parsed roles slice stays nil), the
user's existing role set is left untouched; when the parsed list is
non-empty, the role set is atomically replaced by it, and an immediate
get_user_roles returns exactly that list whenever it has no duplicates
(duplicates are collapsed by the conflict-ignoring insert). -/
theorem provision_roles_semantics (cfg : Config) (km : KeyManager)
    (bcryptOK : String → String → Bool) (db : DBState) (st : CacheState) (now : Int)
    (path cid sec uid fname phone email rolesRaw jti ntok sk : String)
    (hpriv : getPrivateKey km = some sk)
    (hok : (handleUserProvisioning cfg km bcryptOK db st now path cid sec uid fname phone
      email rolesRaw jti ntok).1.isOk = true) :
    (parseRoles rolesRaw = none →
      (handleUserProvisioning cfg km bcryptOK db st now path cid sec uid fname phone email
        rolesRaw jti ntok).2.1.userRoles = db.userRoles) ∧
    (∀ l, parseRoles rolesRaw = some l → l.Nodup →
      getUserRoles (handleUserProvisioning cfg km bcryptOK db st now path cid sec uid
        fname phone email rolesRaw jti ntok).2.1 uid = l) := by
  have hdb := provision_ok_db cfg km bcryptOK db st now path cid sec uid fname phone email
    rolesRaw jti ntok sk hpriv hok
  constructor
  · intro hn
    rw [hdb]
    simp [updateClientUpdatedAt, upsertUserAndRoles, hn]
  · intro l hl hnd
    rw [hdb]
    have hmem : ∀ r ∈ l, (uid, r) ∉ db.userRoles.filter (fun x => x.1 != uid) := by
      intro r hrr hmem2
      simp [List.mem_filter] at hmem2
    show rolesOf (updateClientUpdatedAt
      (upsertUserAndRoles db
        { id := uid, tenantID := path, email := email, fullName := fname,
          phoneNumber := phone } (parseRoles rolesRaw)) cid now).userRoles uid = l
    have hur : (updateClientUpdatedAt
        (upsertUserAndRoles db
          { id := uid, tenantID := path, email := email, fullName := fname,
            phoneNumber := phone } (parseRoles rolesRaw)) cid now).userRoles =
        insertRoles (db.userRoles.filter (fun x => x.1 != uid)) uid l := by
      simp [updateClientUpdatedAt, upsertUserAndRoles, hl]
    rw [hur, insertRoles_eq _ _ _ hmem hnd, rolesOf_append_keyed, rolesOf_filter_ne]
    simp

/-- C9 amended witness: provisioning with user_roles "a,b" over an existing
role set [old] succeeds and get_user_roles returns exactly [a, b]. -/
theorem provision_roles_semantics_witness :
    getUserRoles (handleUserProvisioning fxCfg fxKm (fun hs s2 => hs == s2) fxDb
      fxEmptyCache 0 "t1" "c1" "sec" "u1" "F" "P" "" "a,b" "j1" "R1").2.1 "u1" =
      ["a", "b"] := by
  have h := provision_roles_semantics fxCfg fxKm (fun hs s2 => hs == s2) fxDb fxEmptyCache 0
    "t1" "c1" "sec" "u1" "F" "P" "" "a,b" "j1" "R1" "k1" (by decide) (by decide)
  exact h.2 ["a", "b"] (by decide) (by decide)

/-! ### Fixed-window rate limiting (claim C5) -/

@[simp] theorem cacheSetClient_rateCounters (st : CacheState) (now : Int) (c : Client)
    (ttl : Int) : (cacheSetClient st now c ttl).rateCounters = st.rateCounters := rfl

@[simp] theorem cacheSetClient_clients (st : CacheState) (now : Int) (c : Client) (ttl : Int) :
    (cacheSetClient st now c ttl).clients = setKey st.clients c.clientID (c, now + ttl) := rfl

@[simp] theorem store_clients (st : CacheState) (now : Int) (tok : String)
    (d : RefreshTokenData) (ttl : Int) :
    (storeRefreshToken st now tok d ttl).clients = st.clients := rfl

@[simp] theorem store_rateCounters (st : CacheState) (now : Int) (tok : String)
    (d : RefreshTokenData) (ttl : Int) :
    (storeRefreshToken st now tok d ttl).rateCounters = st.rateCounters := rfl

@[simp] theorem updateClient_users (db : DBState) (cid : String) (now : Int) :
    (updateClientUpdatedAt db cid now).users = db.users := rfl

@[simp] theorem updateClient_tenants (db : DBState) (cid : String) (now : Int) :
    (updateClientUpdatedAt db cid now).tenants = db.tenants := rfl

@[simp] theorem updateClient_userRoles (db : DBState) (cid : String) (now : Int) :
    (updateClientUpdatedAt db cid now).userRoles = db.userRoles := rfl

/-- The live value of a client's rate counter (0 when absent or expired). -/
def liveCount (st : CacheState) (now : Int) (cid : String) : Int :=
  match findVal st.rateCounters cid with
  | some (c, some e) => if now < e then c else 0
  | some (c, none) => c
  | none => 0

/-- The contract of Cache.CheckRateLimit: INCR yields the live count plus
one, the window TTL is installed exactly when the new count is 1 (otherwise
the key's expiry is untouched), and the exceeded flag is new count > limit. -/
theorem checkRateLimit_spec (st : CacheState) (now : Int) (cid : String)
    (limit window : Int) :
    (checkRateLimit st now cid limit window).1 =
      decide (limit < liveCount st now cid + 1) ∧
    (liveCount st now cid = 0 →
      findVal (checkRateLimit st now cid limit window).2.rateCounters cid =
        some (1, some (now + window))) ∧
    (∀ k e, findVal st.rateCounters cid = some (k, some e) → now < e → k + 1 ≠ 1 →
      findVal (checkRateLimit st now cid limit window).2.rateCounters cid =
        some (k + 1, some e)) ∧
    (∀ k, findVal st.rateCounters cid = some (k, none) → k + 1 ≠ 1 →
      findVal (checkRateLimit st now cid limit window).2.rateCounters cid =
        some (k + 1, none)) := by
  have hafter1 : ∀ (l : List (String × (Int × Option Int))) (v : Int × Option Int),
      findVal (expireRateCounter (setKey l cid v) cid (now + window)) cid =
        some (v.1, some (now + window)) := by
    intro l v
    unfold expireRateCounter
    rw [findVal_map_update, if_pos rfl, findVal_setKey_self]
    rfl
  refine ⟨?_, ?_, ?_, ?_⟩
  · cases hf : findVal st.rateCounters cid with
    | none => simp [checkRateLimit, incrRateCounter, liveCount, hf]
    | some v =>
      obtain ⟨c, eo⟩ := v
      cases eo with
      | none => simp [checkRateLimit, incrRateCounter, liveCount, hf]
      | some e =>
        by_cases hlive : now < e
        · simp [checkRateLimit, incrRateCounter, liveCount, hf, hlive]
        · simp [checkRateLimit, incrRateCounter, liveCount, hf, hlive]
  · intro h0
    cases hf : findVal st.rateCounters cid with
    | none => simp [checkRateLimit, incrRateCounter, hf, hafter1]
    | some v =>
      obtain ⟨c, eo⟩ := v
      cases eo with
      | none =>
        have hc : c = 0 := by simpa [liveCount, hf] using h0
        subst hc
        simp [checkRateLimit, incrRateCounter, hf, hafter1]
      | some e =>
        by_cases hlive : now < e
        · have hc : c = 0 := by simpa [liveCount, hf, hlive] using h0
          subst hc
          simp [checkRateLimit, incrRateCounter, hf, hlive, hafter1]
        · simp [checkRateLimit, incrRateCounter, hf, hlive, hafter1]
  · intro k e hf hlive hne
    simp [checkRateLimit, incrRateCounter, hf, hlive, hne, findVal_setKey_self]
  · intro k hf hne
    simp [checkRateLimit, incrRateCounter, hf, hne, findVal_setKey_self]

/-- Invariant of a run of client_credentials grants: the database holds the
client (with the given secret hash and limit) and the user under the path
tenant, and any cached copy of the client agrees with the database. -/
def CCInv (cid uid path hash : String) (L : Int) (db : DBState) (st : CacheState) : Prop :=
  (∃ c, dbGetClient db cid = some c ∧ c.clientID = cid ∧ c.clientSecretHash = hash ∧
    c.rateLimit = L) ∧
  (∀ c e, findVal st.clients cid = some (c, e) →
    c.clientID = cid ∧ c.clientSecretHash = hash ∧ c.rateLimit = L) ∧
  (∃ u, dbGetUser db uid = some u ∧ u.tenantID = path) ∧
  tenantExists db path = true

/-- One client_credentials call under the invariant: the call is rejected
with RateLimitExceeded exactly when the incremented counter exceeds the
limit, and otherwise succeeds; the invariant is preserved and the counter
becomes the old live count plus one with the window expiry set on the 0 to 1
transition. -/
theorem clientCreds_rate_step (cfg : Config) (km : KeyManager)
    (bcryptOK : String → String → Bool) (db : DBState) (st : CacheState) (now : Int)
    (path cid sec uid jti ntok hash : String) (L k e2 : Int)
    (hinv : CCInv cid uid path hash L db st)
    (hcid : cid ≠ "") (hsec : sec ≠ "") (hb : bcryptOK hash sec = true)
    (huid : uid ≠ "") (hkm : ∃ sk, getPrivateKey km = some sk)
    (hctr : (findVal st.rateCounters cid = none ∧ k = 0) ∨
            (findVal st.rateCounters cid = some (k, some e2) ∧ now < e2 ∧ 1 ≤ k)) :
    (handleClientCredentials cfg km bcryptOK db st now path cid sec uid jti ntok).1.isOk =
      decide (k + 1 ≤ L) ∧
    (L < k + 1 →
      (handleClientCredentials cfg km bcryptOK db st now path cid sec uid jti ntok).1 =
        GrantResult.err ErrRateLimitExceeded) ∧
    CCInv cid uid path hash L
      (handleClientCredentials cfg km bcryptOK db st now path cid sec uid jti ntok).2.1
      (handleClientCredentials cfg km bcryptOK db st now path cid sec uid jti ntok).2.2 ∧
    findVal (handleClientCredentials cfg km bcryptOK db st now path cid sec uid jti
      ntok).2.2.rateCounters cid = some (k + 1, some (if k = 0 then now + 60 else e2)) := by
  obtain ⟨⟨c0, hc0, hcid0, hhash0, hL0⟩, hcache, ⟨u0, hu0, hut0⟩, hten⟩ := hinv
  obtain ⟨sk, hsk⟩ := hkm
  have hne : ¬ (cid = "" ∨ sec = "") := by
    rintro (h | h)
    · exact hcid h
    · exact hsec h
  -- resolve the client: either a consistent cache hit or the db copy
  have hres : ∃ c st0, resolveClient db st now cid = some (c, st0) ∧
      c.clientID = cid ∧ c.clientSecretHash = hash ∧ c.rateLimit = L ∧
      st0.rateCounters = st.rateCounters ∧
      (∀ c2 e, findVal st0.clients cid = some (c2, e) →
        c2.clientID = cid ∧ c2.clientSecretHash = hash ∧ c2.rateLimit = L) := by
    cases hcg : cacheGetClient st now cid with
    | some c =>
      have hprops : c.clientID = cid ∧ c.clientSecretHash = hash ∧ c.rateLimit = L := by
        unfold cacheGetClient at hcg
        cases hfv : findVal st.clients cid with
        | none => rw [hfv] at hcg; exact Option.noConfusion hcg
        | some v =>
          obtain ⟨c2, e⟩ := v
          rw [hfv] at hcg
          by_cases hlv : now < e
          · simp only [hlv, if_true] at hcg
            obtain rfl : c2 = c := Option.some.inj hcg
            exact hcache c2 e hfv
          · simp [hlv] at hcg
      exact ⟨c, st, by simp [resolveClient, hcg], hprops.1, hprops.2.1, hprops.2.2, rfl,
        hcache⟩
    | none =>
      refine ⟨c0, cacheSetClient st now c0 900, by simp [resolveClient, hcg, hc0], hcid0,
        hhash0, hL0, rfl, ?_⟩
      intro c2 e hfv
      rw [cacheSetClient_clients, hcid0, findVal_setKey_self] at hfv
      simp only [Option.some.injEq, Prod.mk.injEq] at hfv
      rw [← hfv.1]
      exact ⟨hcid0, hhash0, hL0⟩
  obtain ⟨c, st0, hres0, hcidc, hhashc, hLc, hrc0, hcache0⟩ := hres
  have hbc : bcryptOK c.clientSecretHash sec = true := by rw [hhashc]; exact hb
  -- the live count in st0 equals k
  have hlive : liveCount st0 now cid = k := by
    rcases hctr with ⟨hf, hk⟩ | ⟨hf, hlt, hk⟩
    · simp [liveCount, hrc0, hf, hk]
    · simp [liveCount, hrc0, hf, hlt]
  have hspec := checkRateLimit_spec st0 now cid L 60
  have hflag : (checkRateLimit st0 now cid L 60).1 = decide (L < k + 1) := by
    rw [hspec.1, hlive]
  have hctr2 : findVal (checkRateLimit st0 now cid L 60).2.rateCounters cid =
      some (k + 1, some (if k = 0 then now + 60 else e2)) := by
    by_cases hk0 : k = 0
    · rw [if_pos hk0]
      exact hk0 ▸ hspec.2.1 (by rw [hlive, hk0])
    · rw [if_neg hk0]
      rcases hctr with ⟨hf, hk⟩ | ⟨hf, hlt, hk⟩
      · exact absurd hk hk0
      · exact hspec.2.2.1 k e2 (by rw [hrc0]; exact hf) hlt (by omega)
  have hcache2 : ∀ c2 e, findVal (checkRateLimit st0 now cid L 60).2.clients cid =
      some (c2, e) → c2.clientID = cid ∧ c2.clientSecretHash = hash ∧ c2.rateLimit = L := by
    intro c2 e hfv
    rw [checkRateLimit_clients] at hfv
    exact hcache0 c2 e hfv
  by_cases hexc : L < k + 1
  · -- rate limited
    have hflagT : (checkRateLimit st0 now cid L 60).1 = true := by
      rw [hflag]
      simpa using hexc
    have heval : handleClientCredentials cfg km bcryptOK db st now path cid sec uid jti
        ntok = (GrantResult.err ErrRateLimitExceeded, db, (checkRateLimit st0 now cid L
          60).2) := by
      simp [handleClientCredentials, hne, hres0, hbc, hLc, hflagT]
    rw [heval]
    refine ⟨by simp [GrantResult.isOk, show ¬ (k + 1 ≤ L) by omega], fun _ => rfl, ?_, ?_⟩
    · exact ⟨⟨c0, hc0, hcid0, hhash0, hL0⟩, hcache2, ⟨u0, hu0, hut0⟩, hten⟩
    · exact hctr2
  · -- grant proceeds to minting
    have hflagF : (checkRateLimit st0 now cid L 60).1 = false := by
      rw [hflag]
      simpa using hexc
    have hgen : ∀ (S : TokenSubject) (n : Int) (j : String),
        generateAccessToken cfg km S n j =
          some { alg := "RS256",
                 kid := if getCurrentKeyID km ≠ "" then some (getCurrentKeyID km) else none,
                 claims := accessClaims cfg S n j, sigKid := sk } := by
      intro S n j
      simp [generateAccessToken, hsk]
    have heval : handleClientCredentials cfg km bcryptOK db st now path cid sec uid jti
        ntok =
        (GrantResult.ok
          { accessToken :=
              { alg := "RS256",
                kid := if getCurrentKeyID km ≠ "" then some (getCurrentKeyID km) else none,
                claims := accessClaims cfg
                  { userID := uid, tenantID := path, roles := getUserRoles db uid,
                    scopes := [] } now jti,
                sigKid := sk },
            tokenType := "Bearer", expiresIn := cfg.jwtExpiry, refreshToken := ntok },
          updateClientUpdatedAt db cid now,
          storeRefreshToken (checkRateLimit st0 now cid L 60).2 now ntok
            { clientID := cid, subject := some
                { userID := uid, tenantID := path, roles := getUserRoles db uid,
                  scopes := [] },
              expiresAt := now + cfg.refreshTokenExpiry } cfg.refreshTokenExpiry) := by
      simp [handleClientCredentials, hne, hres0, hbc, hLc, hflagF, huid, hten, hu0, hut0,
        hgen]
    rw [heval]
    refine ⟨by simp [GrantResult.isOk, show k + 1 ≤ L by omega], fun hc => absurd hc hexc,
      ?_, ?_⟩
    · refine ⟨⟨touchClient now c0, ?_, hcid0, hhash0, hL0⟩, ?_, ⟨u0, hu0, hut0⟩, hten⟩
      · unfold dbGetClient updateClientUpdatedAt
        show findVal (db.clients.map (fun x =>
          if x.1 == cid then (x.1, touchClient now x.2) else x)) cid = some (touchClient
            now c0)
        rw [findVal_map_update, if_pos rfl]
        unfold dbGetClient at hc0
        rw [hc0]
        rfl
      · intro c2 e hfv
        rw [store_clients] at hfv
        exact hcache2 c2 e hfv
    · rw [store_rateCounters]
      exact hctr2

/-- Folding the step lemma over a window: starting with prior count k, the
i-th call is rate-limited exactly when k + i reaches the limit. -/
theorem runGrants_spec (cfg : Config) (km : KeyManager)
    (bcryptOK : String → String → Bool) (path cid sec uid hash : String) (L t0 : Int)
    (hcid : cid ≠ "") (hsec : sec ≠ "") (hb : bcryptOK hash sec = true)
    (huid : uid ≠ "") (hkm : ∃ sk, getPrivateKey km = some sk) :
    ∀ (calls : List GrantCall) (db : DBState) (st : CacheState) (k e2 : Int),
      CCInv cid uid path hash L db st →
      ((findVal st.rateCounters cid = none ∧ k = 0) ∨
       (findVal st.rateCounters cid = some (k, some e2) ∧ 1 ≤ k ∧ t0 + 60 ≤ e2)) →
      (∀ c ∈ calls, t0 ≤ c.now ∧ c.now < t0 + 60) →
      (runGrants cfg km bcryptOK path cid sec uid db st calls).1.length = calls.length ∧
      (∀ i (h : i < (runGrants cfg km bcryptOK path cid sec uid db st calls).1.length),
        ((runGrants cfg km bcryptOK path cid sec uid db st calls).1.get ⟨i, h⟩).isOk =
          decide ((k + i : Int) < L)) ∧
      (∀ i (h : i < (runGrants cfg km bcryptOK path cid sec uid db st calls).1.length),
        L ≤ k + i →
        (runGrants cfg km bcryptOK path cid sec uid db st calls).1.get ⟨i, h⟩ =
          GrantResult.err ErrRateLimitExceeded) ∧
      (runGrants cfg km bcryptOK path cid sec uid db st calls).1.countP GrantResult.isOk ≤
        (L - k).toNat := by
  intro calls
  induction calls with
  | nil =>
    intro db st k e2 hinv hctr htimes
    simp [runGrants]
  | cons c1 rest ih =>
    intro db st k e2 hinv hctr htimes
    have htc := htimes c1 (by simp)
    have hctr2 : (findVal st.rateCounters cid = none ∧ k = 0) ∨
        (findVal st.rateCounters cid = some (k, some e2) ∧ c1.now < e2 ∧ 1 ≤ k) := by
      rcases hctr with ⟨hf, hk⟩ | ⟨hf, hk1, he⟩
      · exact Or.inl ⟨hf, hk⟩
      · exact Or.inr ⟨hf, by omega, hk1⟩
    have hstep := clientCreds_rate_step cfg km bcryptOK db st c1.now path cid sec uid
      c1.jti c1.newRefreshToken hash L k e2 hinv hcid hsec hb huid hkm hctr2
    obtain ⟨hflag, herr, hinv2, hctrAfter⟩ := hstep
    have he2B : t0 + 60 ≤ (if k = 0 then c1.now + 60 else e2) := by
      by_cases hk0 : k = 0
      · rw [if_pos hk0]
        omega
      · rw [if_neg hk0]
        rcases hctr with ⟨hf, hk⟩ | ⟨hf, hk1, he⟩
        · exact absurd hk hk0
        · exact he
    have hrec := ih
      (handleClientCredentials cfg km bcryptOK db st c1.now path cid sec uid c1.jti
        c1.newRefreshToken).2.1
      (handleClientCredentials cfg km bcryptOK db st c1.now path cid sec uid c1.jti
        c1.newRefreshToken).2.2
      (k + 1) (if k = 0 then c1.now + 60 else e2) hinv2
      (Or.inr ⟨hctrAfter, by omega, he2B⟩)
      (fun c hc => htimes c (by simp [hc]))
    obtain ⟨hlen, hidx, herrIdx, hcount⟩ := hrec
    refine ⟨by simp [runGrants, hlen], ?_, ?_, ?_⟩
    · intro i h
      cases i with
      | zero =>
        show (handleClientCredentials cfg km bcryptOK db st c1.now path cid sec uid c1.jti
          c1.newRefreshToken).1.isOk = decide ((k + (0 : Nat) : Int) < L)
        rw [hflag]
        exact decide_eq_decide.mpr (by omega)
      | succ i2 =>
        have h2 : i2 < (runGrants cfg km bcryptOK path cid sec uid
            (handleClientCredentials cfg km bcryptOK db st c1.now path cid sec uid c1.jti
              c1.newRefreshToken).2.1
            (handleClientCredentials cfg km bcryptOK db st c1.now path cid sec uid c1.jti
              c1.newRefreshToken).2.2 rest).1.length := by
          have := h
          simp [runGrants] at this
          omega
        have := hidx i2 h2
        show ((runGrants cfg km bcryptOK path cid sec uid
            (handleClientCredentials cfg km bcryptOK db st c1.now path cid sec uid c1.jti
              c1.newRefreshToken).2.1
            (handleClientCredentials cfg km bcryptOK db st c1.now path cid sec uid c1.jti
              c1.newRefreshToken).2.2 rest).1.get ⟨i2, h2⟩).isOk =
          decide ((k + (i2 + 1 : Nat) : Int) < L)
        rw [this]
        exact decide_eq_decide.mpr (by push_cast; omega)
    · intro i h hL
      cases i with
      | zero =>
        show (handleClientCredentials cfg km bcryptOK db st c1.now path cid sec uid c1.jti
          c1.newRefreshToken).1 = GrantResult.err ErrRateLimitExceeded
        apply herr
        have : (L : Int) ≤ k + (0 : Nat) := hL
        push_cast at this
        omega
      | succ i2 =>
        have h2 : i2 < (runGrants cfg km bcryptOK path cid sec uid
            (handleClientCredentials cfg km bcryptOK db st c1.now path cid sec uid c1.jti
              c1.newRefreshToken).2.1
            (handleClientCredentials cfg km bcryptOK db st c1.now path cid sec uid c1.jti
              c1.newRefreshToken).2.2 rest).1.length := by
          have := h
          simp [runGrants] at this
          omega
        show (runGrants cfg km bcryptOK path cid sec uid
            (handleClientCredentials cfg km bcryptOK db st c1.now path cid sec uid c1.jti
              c1.newRefreshToken).2.1
            (handleClientCredentials cfg km bcryptOK db st c1.now path cid sec uid c1.jti
              c1.newRefreshToken).2.2 rest).1.get ⟨i2, h2⟩ =
          GrantResult.err ErrRateLimitExceeded
        apply herrIdx i2 h2
        have : (L : Int) ≤ k + (i2 + 1 : Nat) := hL
        push_cast at this
        omega
    · show ((handleClientCredentials cfg km bcryptOK db st c1.now path cid sec uid c1.jti
          c1.newRefreshToken).1 :: (runGrants cfg km bcryptOK path cid sec uid _ _
            rest).1).countP GrantResult.isOk ≤ (L - k).toNat
      rw [List.countP_cons]
      by_cases hkL : k + 1 ≤ L
      · have : (handleClientCredentials cfg km bcryptOK db st c1.now path cid sec uid
            c1.jti c1.newRefreshToken).1.isOk = true := by
          rw [hflag]
          simpa using hkL
        rw [this, if_pos rfl]
        omega
      · have : (handleClientCredentials cfg km bcryptOK db st c1.now path cid sec uid
            c1.jti c1.newRefreshToken).1.isOk = false := by
          rw [hflag]
          simpa using hkL
        rw [this, if_neg (by simp)]
        omega

/-- C5. Fixed-window rate limiting.  First conjunct: CheckRateLimit
atomically increments the client's counter, installs the window TTL only on
the transition to count 1, and reports exceeded iff the new count strictly
exceeds the limit.  Remaining conjuncts: for a client with limit L whose
counter is absent, a sequence of client_credentials grants inside the
one-minute window aligned to the first request succeeds exactly at the
first L positions, every later request in the window receives
RateLimitExceeded, and at most L of the grants complete successfully. -/
theorem rate_limit_fixed_window (cfg : Config) (km : KeyManager)
    (bcryptOK : String → String → Bool) (path cid sec uid hash : String) (L t0 : Int)
    (db : DBState) (st : CacheState) (calls : List GrantCall)
    (hcid : cid ≠ "") (hsec : sec ≠ "") (hb : bcryptOK hash sec = true)
    (huid : uid ≠ "") (hkm : ∃ sk, getPrivateKey km = some sk)
    (hinv : CCInv cid uid path hash L db st)
    (hctr0 : findVal st.rateCounters cid = none)
    (htimes : ∀ c ∈ calls, t0 ≤ c.now ∧ c.now < t0 + 60) :
    (∀ (s : CacheState) (n lim w : Int) (c2 : String),
      (checkRateLimit s n c2 lim w).1 = decide (lim < liveCount s n c2 + 1) ∧
      (liveCount s n c2 = 0 →
        findVal (checkRateLimit s n c2 lim w).2.rateCounters c2 =
          some (1, some (n + w))) ∧
      (∀ kk ee, findVal s.rateCounters c2 = some (kk, some ee) → n < ee → kk + 1 ≠ 1 →
        findVal (checkRateLimit s n c2 lim w).2.rateCounters c2 = some (kk + 1, some ee)) ∧
      (∀ kk, findVal s.rateCounters c2 = some (kk, none) → kk + 1 ≠ 1 →
        findVal (checkRateLimit s n c2 lim w).2.rateCounters c2 = some (kk + 1, none))) ∧
    (runGrants cfg km bcryptOK path cid sec uid db st calls).1.length = calls.length ∧
    (∀ i (h : i < (runGrants cfg km bcryptOK path cid sec uid db st calls).1.length),
      ((runGrants cfg km bcryptOK path cid sec uid db st calls).1.get ⟨i, h⟩).isOk =
        decide ((i : Int) < L)) ∧
    (∀ i (h : i < (runGrants cfg km bcryptOK path cid sec uid db st calls).1.length),
      L ≤ (i : Int) →
      (runGrants cfg km bcryptOK path cid sec uid db st calls).1.get ⟨i, h⟩ =
        GrantResult.err ErrRateLimitExceeded) ∧
    (runGrants cfg km bcryptOK path cid sec uid db st calls).1.countP GrantResult.isOk ≤
      L.toNat := by
  have hrun := runGrants_spec cfg km bcryptOK path cid sec uid hash L t0 hcid hsec hb huid
    hkm calls db st 0 0 hinv (Or.inl ⟨hctr0, rfl⟩) htimes
  obtain ⟨hlen, hidx, herrIdx, hcount⟩ := hrun
  refine ⟨fun s n lim w c2 => checkRateLimit_spec s n c2 lim w, hlen, ?_, ?_, ?_⟩
  · intro i h
    rw [hidx i h]
    exact decide_eq_decide.mpr (by omega)
  · intro i h hL
    exact herrIdx i h (by omega)
  · simpa using hcount

/-- C5 witness: with limit 2 and three calls inside one window, the third
call is rejected with RateLimitExceeded and at most two grants succeed. -/
theorem rate_limit_fixed_window_witness :
    (runGrants fxCfg fxKm (fun hs s2 => hs == s2) "t1" "c1" "sec" "u1" fxDb fxEmptyCache
      [{ now := 10, jti := "j1", newRefreshToken := "R1" },
       { now := 11, jti := "j2", newRefreshToken := "R2" },
       { now := 12, jti := "j3", newRefreshToken := "R3" }]).1.get ⟨2, by decide⟩ =
      GrantResult.err ErrRateLimitExceeded ∧
    (runGrants fxCfg fxKm (fun hs s2 => hs == s2) "t1" "c1" "sec" "u1" fxDb fxEmptyCache
      [{ now := 10, jti := "j1", newRefreshToken := "R1" },
       { now := 11, jti := "j2", newRefreshToken := "R2" },
       { now := 12, jti := "j3", newRefreshToken := "R3" }]).1.countP GrantResult.isOk ≤
      (2 : Int).toNat := by
  have hinv : CCInv "c1" "u1" "t1" "sec" 2 fxDb fxEmptyCache :=
    ⟨⟨fxClient, by decide, by decide, by decide, by decide⟩,
     fun c e h => Option.noConfusion h,
     ⟨{ id := "u1", tenantID := "t1", email := none, fullName := "F", phoneNumber := "P" },
       by decide, by decide⟩,
     by decide⟩
  have h := rate_limit_fixed_window fxCfg fxKm (fun hs s2 => hs == s2) "t1" "c1" "sec"
    "u1" "sec" 2 10 fxDb fxEmptyCache
    [{ now := 10, jti := "j1", newRefreshToken := "R1" },
     { now := 11, jti := "j2", newRefreshToken := "R2" },
     { now := 12, jti := "j3", newRefreshToken := "R3" }]
    (by decide) (by decide) (by decide) (by decide) ⟨"k1", rfl⟩ hinv rfl (by decide)
  exact ⟨h.2.2.2.1 2 (by decide) (by decide), h.2.2.2.2⟩

end SessionService
